import Mathlib

/-!
sysd-mgr: line parsing, dataset synchronisation, privilege broker, filter.

A shallow embedding of `src/sysd-mgr.c`.  C strings are lists of characters
(the bytes before the terminating NUL, one `Char` per byte); fixed-size
buffers appear as explicit truncations (`List.take`); external processes and
the operator are functions handed to the code as parameters.
-/

namespace SysdMgr

/-- A C string: the bytes that precede the terminating NUL. -/
abbrev CStr := List Char

/-! ## libc helpers used by the parsers -/

/-- Membership in the delimiter set `" \t"` that both parsers pass to `strtok_r`. -/
def isDelim (c : Char) : Bool := c == ' ' || c == '\t'

/-- One call of `strtok_r(s, " \t", &save)` on the text at the current scan
position: leading delimiters are skipped; if nothing is left the result is
NULL and the scan position stays at the end; otherwise the token is the
maximal delimiter-free run and the scan position moves one past the delimiter
that ended it (or stays at the end of the string). -/
def strtok_r (s : CStr) : Option CStr × CStr :=
  match s.dropWhile isDelim with
  | [] => (none, [])
  | c :: cs =>
    (some ((c :: cs).takeWhile (fun x => !isDelim x)),
     ((c :: cs).dropWhile (fun x => !isDelim x)).drop 1)

/-- The idiom `strncpy(dst, src, n-1); dst[n-1] = '\0';` on a buffer of `n` bytes. -/
def strncpy_term (src : CStr) (n : Nat) : CStr := src.take (n - 1)

/-- `trim_newline` (sysd-mgr.c:21-25): drop one trailing `'\n'`, if there is one. -/
def trim_newline (s : CStr) : CStr :=
  if s.getLast? = some '\n' then s.dropLast else s

/-- The three out-parameters of the two line parsers. -/
structure Parsed where
  name : CStr
  state : CStr
  desc : CStr
deriving DecidableEq, Repr

/-- `parse_list_units_line` (sysd-mgr.c:47-72).  `nn`, `sn`, `dn` are the sizes
of the three output buffers; `buf` is the 4096-byte local copy of the line. -/
def parse_list_units_line (line : CStr) (nn sn dn : Nat) : Parsed :=
  let buf := strncpy_term line 4096
  match strtok_r buf with
  | (none, _) => { name := [], state := [], desc := [] }
  | (some tok, save) =>
    let out_name := strncpy_term tok nn
    let (_load, save) := strtok_r save
    let (active, save) := strtok_r save
    let (_sub, save) := strtok_r save
    let out_state := match active with
      | some a => strncpy_term a sn
      | none => []
    let out_desc := strncpy_term (save.dropWhile isDelim) dn
    { name := out_name, state := out_state, desc := out_desc }

/-- The loop `while ((tok = strtok_r(NULL, " \t", &save)) != NULL) last = tok;`
of `parse_list_unit_files_line`, with an iteration budget. -/
def last_token_loop : Nat → CStr → Option CStr → Option CStr
  | 0, _, last => last
  | fuel + 1, save, last =>
    match strtok_r save with
    | (none, _) => last
    | (some tok, save') => last_token_loop fuel save' (some tok)

/-- `parse_list_unit_files_line` (sysd-mgr.c:79-97).  Every iteration of the
loop consumes at least one byte of `buf`, so `buf.length` iterations are
enough for it to run to completion. -/
def parse_list_unit_files_line (line : CStr) (nn sn _dn : Nat) : Parsed :=
  let buf := strncpy_term line 4096
  match strtok_r buf with
  | (none, _) => { name := [], state := [], desc := [] }
  | (some tok, save) =>
    let out_name := strncpy_term tok nn
    let last := last_token_loop buf.length save none
    let out_state := match last with
      | some l => strncpy_term l sn
      | none => []
    { name := out_name, state := out_state, desc := [] }

/-! ## Vocabulary of the specification -/

/-- The whitespace-separated tokens of a line: the non-empty pieces between
delimiters. -/
def tokens (line : CStr) : List CStr :=
  (line.splitOnP (fun c => isDelim c)).filter (fun t => !t.isEmpty)

/-- The text that follows the first `n` tokens of a line (it starts at the
delimiter that ended the `n`-th token, or is empty). -/
def afterTokens : Nat → CStr → CStr
  | 0, s => s
  | n + 1, s => afterTokens n ((s.dropWhile isDelim).dropWhile (fun x => !isDelim x))

/-! ## Reading from a pipe -/

/-- The bytes one `fgets` call takes from the stream when it may store at most
`k` of them: it stops after a newline, at end of input, or when `k` bytes are
stored.  The result is the text stored and the rest of the stream. -/
def fgets_chunk : Nat → CStr → CStr × CStr
  | 0, s => ([], s)
  | _ + 1, [] => ([], [])
  | k + 1, c :: cs =>
    if c = '\n' then ([c], cs)
    else ((c :: (fgets_chunk k cs).1), (fgets_chunk k cs).2)

/-- `fgets(buf, n, fp)` on the unread part of the stream: NULL at end of
input, otherwise at most `n - 1` bytes up to and including the first newline. -/
def fgets (n : Nat) (stream : CStr) : Option (CStr × CStr) :=
  if stream = [] then none else some (fgets_chunk (n - 1) stream)

/-! ## The outside world -/

/-- What `g_spawn_command_line_sync` hands back: a failure to run the command
line (with the `GError`, if set), or the child's captured stderr and its wait
status. -/
inductive SpawnSync where
  | failed (gerr_message : Option CStr)
  | done (err : Option CStr) (status : Nat)
deriving DecidableEq, Repr

/-- The external facilities the program calls, as functions of a world `W`.
`popen` is the read side of a query command: `none` when the process cannot be
started, otherwise everything it writes to its standard output (text, free of
NUL bytes); queries do not change the world.  The other three may change it.  `gtk_dialog_run` yields the
response id of the password dialog and the text of its entry.
`g_spawn_async_with_pipes` gets the argument vector and the bytes the parent
writes to the child's standard input, and yields `none` when the child cannot
be spawned, otherwise the bytes read from the child's stderr pipe until end of
file and the wait status. -/
structure Sys (W : Type) where
  popen : W → CStr → Option CStr
  g_spawn_command_line_sync : W → CStr → SpawnSync × W
  gtk_dialog_run : W → (Int × Option CStr) × W
  g_spawn_async_with_pipes : W → List CStr → CStr → Option (CStr × Nat) × W

/-- Calls that leave the process, in the order they are made. -/
inductive Event where
  | popen (cmd : CStr)
  | spawn_sync (command_line : CStr)
  | dialog
  | spawn_async (argv : List CStr)
  | write_stdin (bytes : CStr)
  | refilter (idx : Nat)
deriving DecidableEq, Repr

/-! ## The resolver -/

/-- The command line `get_unit_property_value` builds with
`snprintf(cmd, sizeof(cmd), ...)` into its 512-byte buffer. -/
def property_cmd (unit prop : CStr) : CStr :=
  ("systemctl show -p ".toList ++ prop ++ " --value ".toList ++ unit
    ++ " 2>/dev/null".toList).take 511

/-- `get_unit_property_value` (sysd-mgr.c:28-40) for non-NULL `unit`, `prop`
and `out`: the value written to `out`, and the trace extended by the call. -/
def get_unit_property_value (popen : CStr → Option CStr) (unit prop : CStr) (n : Nat)
    (tr : List Event) : CStr × List Event :=
  if n = 0 then ([], tr)
  else
    match popen (property_cmd unit prop) with
    | none => ([], tr ++ [Event.popen (property_cmd unit prop)])
    | some out =>
      match fgets n out with
      | some (line, _) => (trim_newline line, tr ++ [Event.popen (property_cmd unit prop)])
      | none => ([], tr ++ [Event.popen (property_cmd unit prop)])

/-! ## Rows, stores and the synchronizer -/

/-- One row of a list store: four string columns, each of which may be NULL. -/
structure Row where
  name : Option CStr
  state : Option CStr
  pid : Option CStr
  desc : Option CStr
deriving DecidableEq, Repr

/-- The rows of a `GtkListStore`, first row first. -/
abbrev Store := List Row

/-- The body of the `while (fgets(...))` loop of `populate_store_parsed`
(sysd-mgr.c:119-151) for one chunk `buf` as `fgets` stored it: `none` when the
chunk is skipped (`continue`), otherwise the row that is appended. -/
def populate_row (popen : CStr → Option CStr) (mode : Int) (buf : CStr)
    (tr : List Event) : Option Row × List Event :=
  let buf := trim_newline buf
  if buf = [] then (none, tr)
  else
    let p := if mode = 1 then parse_list_unit_files_line buf 512 128 2048
             else parse_list_units_line buf 512 128 2048
    let name := if p.name = [] then strncpy_term buf 512 else p.name
    let (desc, tr) :=
      if p.desc = [] then get_unit_property_value popen name "Description".toList 2048 tr
      else (p.desc, tr)
    let (pid, tr) := get_unit_property_value popen name "MainPID".toList 64 tr
    let pid := if pid = ['0'] then [] else pid
    (some { name := some name, state := some p.state, pid := some pid, desc := some desc }, tr)

/-- The `while (fgets(buf, sizeof(buf), fp))` loop of `populate_store_parsed`
with an iteration budget; `store` is the store as filled so far. -/
def populate_loop (popen : CStr → Option CStr) (mode : Int) :
    Nat → CStr → Store → List Event → Store × List Event
  | 0, _, store, tr => (store, tr)
  | fuel + 1, stream, store, tr =>
    match fgets 4096 stream with
    | none => (store, tr)
    | some (buf, rest) =>
      match populate_row popen mode buf tr with
      | (none, tr) => populate_loop popen mode fuel rest store tr
      | (some row, tr) => populate_loop popen mode fuel rest (store ++ [row]) tr

/-- `populate_store_parsed` (sysd-mgr.c:101-154) for a non-NULL `cmd`.  Every
successful `fgets` takes at least one byte, so a budget of the stream's length
lets the loop run until `fgets` returns NULL. -/
def populate_store_parsed (popen : CStr → Option CStr) (store : Option Store) (cmd : CStr)
    (mode : Int) (tr : List Event) : Option Store × List Event :=
  match store with
  | none => (none, tr)
  | some _ =>
    match popen cmd with
    | none =>
      (some [{ name := some "Error running command".toList, state := some [],
               pid := some [], desc := some [] }],
       tr ++ [Event.popen cmd])
    | some stream =>
      let r := populate_loop popen mode stream.length stream [] (tr ++ [Event.popen cmd])
      (some r.1, r.2)

/-! ## The filter -/

/-- `g_strstr_len(haystack, -1, needle)`: the text from the first occurrence
of `needle` in `haystack` on, or NULL when there is none. -/
def g_strstr_len : CStr → CStr → Option CStr
  | [], needle => if needle = [] then some [] else none
  | h :: hs, needle =>
    if needle.isPrefixOf (h :: hs) then some (h :: hs) else g_strstr_len hs needle

/-- One of the four `if (col && !match) { ... }` blocks of
`service_filter_visible`. -/
def filter_step (strdown : CStr → CStr) (flt_low : CStr) (col : Option CStr)
    (matched : Bool) : Bool :=
  match col with
  | none => matched
  | some s =>
    if !matched then
      (if (g_strstr_len (strdown s) flt_low).isSome then true else matched)
    else matched

/-- `service_filter_visible` (sysd-mgr.c:163-206).  `filter_txt` is the text of
the filter entry when there is one (`none` stands for the NULL cases of the
first two `if`s); `strdown` is `g_utf8_strdown`. -/
def service_filter_visible (strdown : CStr → CStr) (filter_txt : Option CStr)
    (row : Row) : Bool :=
  match filter_txt with
  | none => true
  | some [] => true
  | some (q :: qs) =>
    let flt_low := strdown (q :: qs)
    let m := false
    let m := filter_step strdown flt_low row.name m
    let m := filter_step strdown flt_low row.desc m
    let m := filter_step strdown flt_low row.pid m
    let m := filter_step strdown flt_low row.state m
    m

/-- The three listing commands of `run_systemctl_action_and_notify`,
`on_switch_page` and `on_activate`. -/
def cmd_running : CStr :=
  "systemctl --no-legend --no-pager list-units --type=service --state=running".toList

def cmd_enabled : CStr :=
  "systemctl --no-legend --no-pager list-unit-files --type=service --state=enabled".toList

def cmd_all : CStr :=
  "systemctl --no-legend --no-pager list-units --type=service --all".toList

/-! ## The privilege broker -/

/-- The response id `GTK_RESPONSE_OK`. -/
def GTK_RESPONSE_OK : Int := -5

/-- `WIFEXITED(status)`: the low seven bits of the wait status are zero. -/
def WIFEXITED (status : Nat) : Bool := status % 128 == 0

/-- `WEXITSTATUS(status)`: bits 8 to 15 of the wait status. -/
def WEXITSTATUS (status : Nat) : Nat := (status / 256) % 256

/-- What a privileged run hands back: the `gboolean` result, the captured text
(`NULL` or a string), the world after the run and the trace so far. -/
structure Outcome (W : Type) where
  ok : Bool
  err : Option CStr
  world : W
  trace : List Event

/-- `prompt_for_password` (sysd-mgr.c:238-268): the password, or NULL when the
dialog was not answered with OK or the entry was left empty. -/
def prompt_for_password {W : Type} (sys : Sys W) (w : W) : Option CStr :=
  if (sys.gtk_dialog_run w).1.1 = GTK_RESPONSE_OK then
    match (sys.gtk_dialog_run w).1.2 with
    | some (c :: cs) => some (c :: cs)
    | some [] => none
    | none => none
  else none

/-- The command line `run_command_pkexec_and_collect` builds with
`g_strdup_printf("pkexec /bin/sh -c '%s 2>&1 1>/dev/null'", cmd)`. -/
def pkexec_command_line (cmd : CStr) : CStr :=
  "pkexec /bin/sh -c '".toList ++ cmd ++ " 2>&1 1>/dev/null'".toList

/-- `run_command_pkexec_and_collect` (sysd-mgr.c:272-293) with a non-NULL
`out_stderr`. -/
def run_command_pkexec_and_collect {W : Type} (sys : Sys W) (w : W) (tr : List Event)
    (cmd : CStr) : Outcome W :=
  match sys.g_spawn_command_line_sync w (pkexec_command_line cmd) with
  | (SpawnSync.failed gerr, w2) =>
    { ok := false, err := gerr, world := w2,
      trace := tr ++ [Event.spawn_sync (pkexec_command_line cmd)] }
  | (SpawnSync.done err status, w2) =>
    { ok := status == 0, err := err, world := w2,
      trace := tr ++ [Event.spawn_sync (pkexec_command_line cmd)] }

/-- The argument vector `spawn_argv` of `run_command_with_sudo_and_password`;
its last element is `inner`, built with `g_strdup_printf("%s 2>&1 1>/dev/null", cmd)`. -/
def sudo_argv (cmd : CStr) : List CStr :=
  ["sudo".toList, "-S".toList, "/bin/sh".toList, "-c".toList,
   cmd ++ " 2>&1 1>/dev/null".toList]

/-- `run_command_with_sudo_and_password` (sysd-mgr.c:297-353) with a non-NULL
`stderr_out`, which the function first resets to NULL. -/
def run_command_with_sudo_and_password {W : Type} (sys : Sys W) (w : W) (tr : List Event)
    (cmd : CStr) : Outcome W :=
  match prompt_for_password sys w with
  | none =>
    { ok := false, err := none, world := (sys.gtk_dialog_run w).2,
      trace := tr ++ [Event.dialog] }
  | some pwd =>
    match sys.g_spawn_async_with_pipes (sys.gtk_dialog_run w).2 (sudo_argv cmd)
        (pwd ++ ['\n']) with
    | (none, w2) =>
      { ok := false, err := none, world := w2,
        trace := tr ++ [Event.dialog, Event.spawn_async (sudo_argv cmd)] }
    | (some (outbuf, status), w2) =>
      { ok := WIFEXITED status && WEXITSTATUS status == 0,
        err := if outbuf = [] then none else some outbuf,
        world := w2,
        trace := tr ++ [Event.dialog, Event.spawn_async (sudo_argv cmd),
                        Event.write_stdin (pwd ++ ['\n'])] }

/-- The first part of `run_systemctl_action_and_notify` (sysd-mgr.c:358-364):
pkexec first, the sudo prompt when that did not succeed.  The result holds the
final values of the locals `ok` and `err`. -/
def run_privileged {W : Type} (sys : Sys W) (w : W) (tr : List Event) (cmd : CStr) :
    Outcome W :=
  if (run_command_pkexec_and_collect sys w tr cmd).ok then
    run_command_pkexec_and_collect sys w tr cmd
  else
    { ok := if (run_command_with_sudo_and_password sys
                  (run_command_pkexec_and_collect sys w tr cmd).world
                  (run_command_pkexec_and_collect sys w tr cmd).trace cmd).ok
            then true else (run_command_pkexec_and_collect sys w tr cmd).ok,
      err := (run_command_with_sudo_and_password sys
                  (run_command_pkexec_and_collect sys w tr cmd).world
                  (run_command_pkexec_and_collect sys w tr cmd).trace cmd).err,
      world := (run_command_with_sudo_and_password sys
                  (run_command_pkexec_and_collect sys w tr cmd).world
                  (run_command_pkexec_and_collect sys w tr cmd).trace cmd).world,
      trace := (run_command_with_sudo_and_password sys
                  (run_command_pkexec_and_collect sys w tr cmd).world
                  (run_command_pkexec_and_collect sys w tr cmd).trace cmd).trace }

/-! ## The application state and the action orchestrator -/

/-- The state the callbacks work on: the world, the trace of outside calls,
and what `AppData` points to.  `statusbar` is the message stack of the status
bar, newest first, each message with the description of its context;
`stores i` is NULL or the rows of store `i`; `filters i` tells whether
`filters[i]` is non-NULL; `notebook` is NULL or the current page of the
notebook; `views i` is NULL or the row selected in view `i`, if any;
`toggle_active` is the state of the "Enable at boot" toggle button. -/
structure App (W : Type) where
  world : W
  trace : List Event
  statusbar : List (CStr × CStr)
  stores : Nat → Option Store
  filters : Nat → Bool
  notebook : Option Int
  views : Nat → Option (Option Row)
  toggle_active : Bool

/-- `gtk_statusbar_push`: the message goes on top of the stack. -/
def gtk_statusbar_push (stack : List (CStr × CStr)) (ctx text : CStr) : List (CStr × CStr) :=
  (ctx, text) :: stack

/-- `gtk_statusbar_pop`: the topmost message of the context is removed. -/
def gtk_statusbar_pop (stack : List (CStr × CStr)) (ctx : CStr) : List (CStr × CStr) :=
  stack.eraseP (fun m => decide (m.1 = ctx))

/-- The text the status bar shows: the top of the stack. -/
def status_text (stack : List (CStr × CStr)) : Option CStr :=
  stack.head?.map (fun m => m.2)

/-- `get_selected_unit` (sysd-mgr.c:220-235). -/
def get_selected_unit {W : Type} (app : App W) : Option CStr :=
  match app.notebook with
  | none => none
  | some page =>
    if page < 0 ∨ page > 2 then none
    else
      match app.views page.toNat with
      | none => none
      | some none => none
      | some (some row) => row.name

/-- `on_filter_changed` (sysd-mgr.c:209-217): every filter that exists is
re-evaluated. -/
def on_filter_changed {W : Type} (app : App W) : App W :=
  { app with
    trace := app.trace ++ (([0, 1, 2].filter (fun i => app.filters i)).map Event.refilter) }

/-- `run_systemctl_action_and_notify` (sysd-mgr.c:356-390) for a non-NULL `ad`. -/
def run_systemctl_action_and_notify {W : Type} (sys : Sys W) (app : App W) (cmd : CStr) :
    App W :=
  let r := run_privileged sys app.world app.trace cmd
  let sb := gtk_statusbar_pop app.statusbar "action".toList
  let sb :=
    if r.ok then gtk_statusbar_push sb "action".toList "Action completed successfully".toList
    else
      match r.err with
      | some (c :: cs) => gtk_statusbar_push sb "action".toList (c :: cs)
      | some [] => gtk_statusbar_push sb "action".toList "Action failed".toList
      | none => gtk_statusbar_push sb "action".toList "Action failed".toList
  let p0 := populate_store_parsed (sys.popen r.world) (app.stores 0) cmd_running 0 r.trace
  let p1 := populate_store_parsed (sys.popen r.world) (app.stores 1) cmd_enabled 1 p0.2
  let p2 := populate_store_parsed (sys.popen r.world) (app.stores 2) cmd_all 0 p1.2
  on_filter_changed
    { app with
      world := r.world
      trace := p2.2
      statusbar := sb
      stores := fun i =>
        if i = 0 then p0.1 else if i = 1 then p1.1 else if i = 2 then p2.1 else app.stores i }

/-- The `if (!unit)` branch of the click handlers: the message is pushed and
the handler returns. -/
def no_service_selected {W : Type} (app : App W) : App W :=
  { app with
    statusbar := gtk_statusbar_push app.statusbar "action".toList
      "No service selected".toList }

/-- `on_start_clicked` (sysd-mgr.c:393-404). -/
def on_start_clicked {W : Type} (sys : Sys W) (app : App W) : App W :=
  match get_selected_unit app with
  | none => no_service_selected app
  | some unit => run_systemctl_action_and_notify sys app ("systemctl start ".toList ++ unit)

/-- `on_stop_clicked` (sysd-mgr.c:406-417). -/
def on_stop_clicked {W : Type} (sys : Sys W) (app : App W) : App W :=
  match get_selected_unit app with
  | none => no_service_selected app
  | some unit => run_systemctl_action_and_notify sys app ("systemctl stop ".toList ++ unit)

/-- `on_restart_clicked` (sysd-mgr.c:419-430). -/
def on_restart_clicked {W : Type} (sys : Sys W) (app : App W) : App W :=
  match get_selected_unit app with
  | none => no_service_selected app
  | some unit => run_systemctl_action_and_notify sys app ("systemctl restart ".toList ++ unit)

/-- `on_reload_clicked` (sysd-mgr.c:432-444). -/
def on_reload_clicked {W : Type} (sys : Sys W) (app : App W) : App W :=
  match get_selected_unit app with
  | some unit => run_systemctl_action_and_notify sys app ("systemctl reload ".toList ++ unit)
  | none => run_systemctl_action_and_notify sys app "systemctl daemon-reload".toList

/-- How far a callback got under a bound on the depth of nested signal
emissions: it returned, or the bound was reached while it was still running. -/
inductive Nested (α : Type) where
  | returned (a : α)
  | unfinished (a : α)

/-- `on_toggle_enable_toggled` (sysd-mgr.c:447-460), the handler connected to
the "toggled" signal of the toggle button (sysd-mgr.c:588).
`gtk_toggle_button_set_active(tb, v)` does nothing when the button already has
state `v`; otherwise it changes the state and emits "toggled", which runs this
handler again before `gtk_toggle_button_set_active` returns.  The first
argument bounds the depth of these nested runs. -/
def on_toggle_enable_toggled {W : Type} : Nat → Sys W → App W → Nested (App W)
  | 0, _, app => Nested.unfinished app
  | depth + 1, sys, app =>
    match get_selected_unit app with
    | none =>
      if (no_service_selected app).toggle_active = !app.toggle_active then
        Nested.returned (no_service_selected app)
      else
        on_toggle_enable_toggled depth sys
          { no_service_selected app with toggle_active := !app.toggle_active }
    | some unit =>
      Nested.returned (run_systemctl_action_and_notify sys app
        ("systemctl ".toList
          ++ (if app.toggle_active then "enable".toList else "disable".toList)
          ++ " ".toList ++ unit))

/-- ASCII lower-casing, the action of `g_utf8_strdown` on ASCII text. -/
def asciiDown (s : CStr) : CStr := s.map Char.toLower

/-- The value the resolver reports for a property of a unit:
the first component of `get_unit_property_value`. -/
def resolver_value (popen : CStr → Option CStr) (unit prop : CStr) (n : Nat) : CStr :=
  (get_unit_property_value popen unit prop n []).1

/-- The record the specification describes for one line of a listing: the
parsed name, or the raw line (as far as the 512-byte name buffer holds it) when
the parsed name is empty; the parsed state; the parsed description, or the
resolver's `Description` when the parsed one is empty; the resolver's
`MainPID`, with `"0"` replaced by the empty string. -/
def spec_record (popen : CStr → Option CStr) (mode : Int) (line : CStr) : Row :=
  let p := if mode = 1 then parse_list_unit_files_line line 512 128 2048
           else parse_list_units_line line 512 128 2048
  let name := if p.name = [] then line.take 511 else p.name
  { name := some name,
    state := some p.state,
    pid := some (if resolver_value popen name "MainPID".toList 64 = "0".toList then []
                 else resolver_value popen name "MainPID".toList 64),
    desc := some (if p.desc = [] then resolver_value popen name "Description".toList 2048
                  else p.desc) }

/-- The byte stream of a command that emits the given lines, each terminated
by a newline. -/
def emit (lines : List CStr) : CStr :=
  lines.flatMap (fun l => l ++ ['\n'])

/-- A world for the worked examples: unit `ssh.service` has no main process
(`MainPID` is reported as `0`), unit `cron.service` runs as process 812, every
other query fails to start. -/
def demo_popen (cmd : CStr) : Option CStr :=
  if cmd = "systemctl show -p MainPID --value ssh.service 2>/dev/null".toList then
    some "0\n".toList
  else if cmd = "systemctl show -p MainPID --value cron.service 2>/dev/null".toList then
    some "812\n".toList
  else if cmd = "systemctl show -p Description --value cron.service 2>/dev/null".toList then
    some "Regular background program processing daemon\n".toList
  else none

/-- A world in which the running listing emits two units with an empty line
between them, and the property queries are answered as in `demo_popen`. -/
def demo_listing_popen (cmd : CStr) : Option CStr :=
  if cmd = cmd_running then
    some ("ssh.service loaded active running OpenSSH Daemon\n\n".toList
      ++ "cron.service loaded active running\n".toList)
  else demo_popen cmd

/-- A world in which the running listing emits one line of 4096 bytes, and
every other command fails to start. -/
def long_popen (cmd : CStr) : Option CStr :=
  if cmd = cmd_running then some (emit [List.replicate 4096 'a']) else none

/-- A system for the worked examples, with the number of privileged commands
run so far as its world: queries are answered as in `demo_listing_popen`;
pkexec runs but exits with status 127 and a diagnostic; the operator answers
the password dialog with OK and a password; sudo then runs the command, which
prints nothing and exits with status 0. -/
def demo_sys : Sys Nat where
  popen := fun _ cmd => demo_listing_popen cmd
  g_spawn_command_line_sync := fun w _ =>
    (SpawnSync.done (some "pkexec: command not found\n".toList) 32512, w + 1)
  gtk_dialog_run := fun w => ((GTK_RESPONSE_OK, some "secret".toList), w)
  g_spawn_async_with_pipes := fun w _ _ => (some ([], 0), w + 1)

/-- The system of `demo_sys` with an operator who cancels the password dialog
(response id `GTK_RESPONSE_CANCEL`). -/
def cancel_sys : Sys Nat :=
  { demo_sys with gtk_dialog_run := fun w => ((-6, some []), w) }

/-- The application state as `on_activate` leaves it, before the first
listing: three empty stores with their filters and views, nothing selected,
the start-up message on the status bar, and `notebook` still NULL, as
`g_new0` made it (`on_activate` never assigns it). -/
def activated_app : App Nat where
  world := 0
  trace := []
  statusbar := [("status".toList, "SysD Manager - ready".toList)]
  stores := fun i => if i < 3 then some [] else none
  filters := fun i => decide (i < 3)
  notebook := none
  views := fun i => if i < 3 then some none else none
  toggle_active := true

/-- A state in which `notebook` is set, page 0 is shown and the row of
`ssh.service` is selected in its view. -/
def selected_app : App Nat :=
  { activated_app with
    notebook := some 0
    views := fun i =>
      if i = 0 then
        some (some { name := some "ssh.service".toList, state := some "active".toList,
                     pid := some [], desc := some "OpenSSH Daemon".toList })
      else if i < 3 then some none else none }

/-- The state `on_activate` leaves, with the row of `ssh.service` selected by
the operator in the view of page 0.  `notebook` is still NULL: no statement of
the program assigns it. -/
def wired_selected_app : App Nat :=
  { activated_app with
    views := fun i =>
      if i = 0 then
        some (some { name := some "ssh.service".toList, state := some "active".toList,
                     pid := some [], desc := some "OpenSSH Daemon".toList })
      else if i < 3 then some none else none }

/-- Calls made by the resolver: a `popen` of a command line that starts with
`systemctl s` (every `property_cmd` does, no listing command does). -/
def is_resolver_query : Event → Bool
  | Event.popen cmd => cmd.take 11 == "systemctl s".toList
  | _ => false

/-- Calls made by the privilege broker: the pkexec run, the password dialog,
the sudo spawn and the write to its standard input. -/
def is_broker_event : Event → Bool
  | Event.spawn_sync _ => true
  | Event.dialog => true
  | Event.spawn_async _ => true
  | Event.write_stdin _ => true
  | _ => false

/-- `get_unit_property_value` together with the guard it starts with
(sysd-mgr.c:29): a NULL `unit` or `prop` gives the empty string without any
command being run. -/
def get_unit_property_value_checked (popen : CStr → Option CStr) (unit prop : Option CStr)
    (n : Nat) (tr : List Event) : CStr × List Event :=
  match unit, prop with
  | some u, some p => get_unit_property_value popen u p n tr
  | _, _ => ([], tr)

/-- The first line of a command's output, without its line terminator. -/
def first_line (out : CStr) : CStr := out.takeWhile (fun c => c ≠ '\n')

/-- A world in which the property query with an empty unit name is answered
by the service manager itself, here for the property `Version`; every other
command fails to start. -/
def version_popen (cmd : CStr) : Option CStr :=
  if cmd = "systemctl show -p Version --value  2>/dev/null".toList then some "252\n".toList
  else none

/-- The system of `demo_sys` with a sudo that rejects the password: it writes
a diagnostic to its stderr and exits with status 1. -/
def denied_sys : Sys Nat :=
  { demo_sys with
    g_spawn_async_with_pipes := fun w _ _ =>
      (some ("sudo: 1 incorrect password attempt\n".toList, 256), w) }

/-! ## The shell line and the command line of the two tiers -/

/-- The redirection suffix both tiers append to the command
(`"%s 2>&1 1>/dev/null"`, sysd-mgr.c:274 and 303). -/
def redirect_suffix : CStr := " 2>&1 1>/dev/null".toList

/-- Where a descriptor of the command points: the pipe on which the parent
reads the child's standard output, the pipe on which it reads the child's
standard error, or `/dev/null`. -/
inductive Sink where
  | out_pipe
  | err_pipe
  | dev_null
deriving DecidableEq, Repr

/-- The descriptors 1 and 2 of a command. -/
structure FdTable where
  fd1 : Sink
  fd2 : Sink
deriving DecidableEq, Repr

/-- The descriptors `/bin/sh` itself is started with by either tier. -/
def child_fds : FdTable := { fd1 := Sink.out_pipe, fd2 := Sink.err_pipe }

/-- A redirection word of the shell: `n>&m` or `n>/dev/null`. -/
inductive Redirection where
  | dup (fd src : Nat)
  | to_null (fd : Nat)
deriving DecidableEq, Repr

/-- The value of a decimal digit. -/
def digit_value (c : Char) : Option Nat :=
  if c.isDigit then some (c.toNat - 48) else none

/-- The reading of one word of a shell line as a redirection, if it is one. -/
def parse_redirection : CStr → Option Redirection
  | [d, '>', '&', m] =>
    match digit_value d, digit_value m with
    | some fd, some src => some (Redirection.dup fd src)
    | _, _ => none
  | d :: '>' :: path =>
    match digit_value d with
    | some fd => if path = "/dev/null".toList then some (Redirection.to_null fd) else none
    | none => none
  | _ => none

/-- The sink descriptor `fd` points to. -/
def FdTable.get (t : FdTable) (fd : Nat) : Option Sink :=
  if fd = 1 then some t.fd1 else if fd = 2 then some t.fd2 else none

/-- Point descriptor `fd` to a sink. -/
def FdTable.set (t : FdTable) (fd : Nat) (s : Sink) : FdTable :=
  if fd = 1 then { t with fd1 := s } else if fd = 2 then { t with fd2 := s } else t

/-- The effect of one redirection: `n>&m` makes `n` a copy of what `m` points
to at that moment, `n>/dev/null` points `n` to `/dev/null`. -/
def redirect (t : FdTable) : Redirection → FdTable
  | Redirection.dup fd src =>
    match t.get src with
    | some s => t.set fd s
    | none => t
  | Redirection.to_null fd => t.set fd Sink.dev_null

/-- The descriptors a shell started with `child_fds` gives to the command of a
line made of plain words and redirection words: the redirections take effect
one after the other, from left to right. -/
def command_fds (line : CStr) : FdTable :=
  ((tokens line).filterMap parse_redirection).foldl redirect child_fds

/-- What a command does when it runs: the bytes it writes to its descriptors
1 and 2, and its exit code. -/
structure Behaviour where
  stdout : CStr
  stderr : CStr
  code : Nat
deriving DecidableEq, Repr

/-- The bytes of a command that reach a sink (those written to descriptor 1
before those written to descriptor 2). -/
def reaches (t : FdTable) (b : Behaviour) (s : Sink) : CStr :=
  (if t.fd1 = s then b.stdout else []) ++ (if t.fd2 = s then b.stderr else [])

/-- The state of the scan of `shell_words`: outside quotes, inside single or
double quotes, right after a backslash (outside or inside double quotes), or
inside a comment. -/
inductive Quote where
  | plain
  | single
  | double
  | escaped
  | double_escaped
  | comment
deriving DecidableEq, Repr

/-- Append a byte to the word being built. -/
def push_char (cur : Option CStr) (c : Char) : Option CStr :=
  some (cur.getD [] ++ [c])

/-- The words of a command line under the quoting rules of
`g_shell_parse_argv`, which `g_spawn_command_line_sync` applies to its
argument: unquoted blanks separate words; text between single quotes is
literal; between double quotes a backslash escapes a double quote, a
backslash, a dollar sign, a backquote and a newline; outside quotes a
backslash escapes the next byte; an unquoted `#` at the start of a word starts
a comment that runs to the end of the line.  `cur` is the word being built;
the result is `none` when the text ends inside quotes or after a backslash. -/
def shell_words : Quote → Option CStr → CStr → Option (List CStr)
  | Quote.plain, cur, [] => some cur.toList
  | Quote.comment, cur, [] => some cur.toList
  | Quote.single, _, [] => none
  | Quote.double, _, [] => none
  | Quote.escaped, _, [] => none
  | Quote.double_escaped, _, [] => none
  | Quote.plain, cur, c :: cs =>
    if c = ' ' ∨ c = '\t' ∨ c = '\n' then
      (shell_words Quote.plain none cs).map (fun ws => cur.toList ++ ws)
    else if c = '\'' then shell_words Quote.single (some (cur.getD [])) cs
    else if c = '"' then shell_words Quote.double (some (cur.getD [])) cs
    else if c = '\\' then shell_words Quote.escaped cur cs
    else if c = '#' ∧ cur = none then shell_words Quote.comment none cs
    else shell_words Quote.plain (push_char cur c) cs
  | Quote.single, cur, c :: cs =>
    if c = '\'' then shell_words Quote.plain cur cs
    else shell_words Quote.single (push_char cur c) cs
  | Quote.double, cur, c :: cs =>
    if c = '"' then shell_words Quote.plain cur cs
    else if c = '\\' then shell_words Quote.double_escaped cur cs
    else shell_words Quote.double (push_char cur c) cs
  | Quote.escaped, cur, c :: cs =>
    if c = '\n' then shell_words Quote.plain cur cs
    else shell_words Quote.plain (push_char cur c) cs
  | Quote.double_escaped, cur, c :: cs =>
    if c = '"' ∨ c = '\\' ∨ c = '$' ∨ c = Char.ofNat 96 ∨ c = '\n' then
      shell_words Quote.double (push_char cur c) cs
    else shell_words Quote.double (push_char (push_char cur '\\') c) cs
  | Quote.comment, cur, c :: cs =>
    if c = '\n' then shell_words Quote.plain cur cs
    else shell_words Quote.comment cur cs

/-- `g_shell_parse_argv`: the argument vector of a command line, or an error
(`none`) for bad quoting or a line without any word. -/
def g_shell_parse_argv (command_line : CStr) : Option (List CStr) :=
  match shell_words Quote.plain none command_line with
  | none => none
  | some [] => none
  | some (w :: ws) => some (w :: ws)

/-- What a child that runs `/bin/sh -c line` hands to its parent when
`/bin/sh` is started with `child_fds`: the bytes on the stdout pipe, the bytes
on the stderr pipe, and the wait status.  `exec` tells what the command made of
the plain words of the line does. -/
def sh_c (exec : List CStr → Behaviour) (line : CStr) : CStr × CStr × Nat :=
  (reaches (command_fds line)
      (exec ((tokens line).filter (fun w => (parse_redirection w).isNone))) Sink.out_pipe,
   reaches (command_fds line)
      (exec ((tokens line).filter (fun w => (parse_redirection w).isNone))) Sink.err_pipe,
   (exec ((tokens line).filter (fun w => (parse_redirection w).isNone))).code * 256)

/-- A system in which pkexec and sudo grant the request silently and run what
they are given: the command line of the primary tier is split by
`g_shell_parse_argv`, the argument after `-c` is run by `/bin/sh` as in `sh_c`,
and the parent gets the bytes of the child's stderr pipe.  The operator
answers the password dialog with OK and a password. -/
def shell_sys (exec : List CStr → Behaviour) : Sys Nat where
  popen := fun _ _ => none
  g_spawn_command_line_sync := fun w command_line =>
    match g_shell_parse_argv command_line with
    | some [_, _, _, line] =>
      (SpawnSync.done (some (sh_c exec line).2.1) (sh_c exec line).2.2, w + 1)
    | _ => (SpawnSync.failed (some "Failed to parse the command line".toList), w)
  gtk_dialog_run := fun w => ((GTK_RESPONSE_OK, some "secret".toList), w)
  g_spawn_async_with_pipes := fun w argv _ =>
    match argv with
    | [_, _, _, _, line] => (some ((sh_c exec line).2.1, (sh_c exec line).2.2), w + 1)
    | _ => (none, w)

/-- A `systemctl` that cannot find the unit: it writes nothing to its standard
output, a diagnostic to its standard error, and exits with code 5. -/
def unit_not_found (_argv : List CStr) : Behaviour :=
  { stdout := [],
    stderr := "Failed to start nosuch.service: Unit nosuch.service not found.\n".toList,
    code := 5 }

/-- A running-format line whose first token is 512 bytes long, one more than
the 512-byte name buffer of `populate_store_parsed` can hold. -/
def longNameLine : CStr :=
  List.replicate 512 'a' ++ " loaded active running OpenSSH Daemon".toList

/-! ## Tokenizer lemmas -/

theorem tokens_nil : tokens [] = [] := by
  simp [tokens]

theorem tokens_cons_delim (c : Char) (s : CStr) (h : isDelim c = true) :
    tokens (c :: s) = tokens s := by
  simp [tokens, h]

theorem tokens_modifyHead (s : CStr) : ∀ (pre : CStr), pre ≠ [] →
    ((s.splitOnP (fun c => isDelim c)).modifyHead (fun t => pre ++ t)).filter
        (fun t => !t.isEmpty)
      = (pre ++ s.takeWhile (fun x => !isDelim x))
          :: tokens (s.dropWhile (fun x => !isDelim x)) := by
  induction s with
  | nil =>
    intro pre hpre
    cases pre with
    | nil => exact absurd rfl hpre
    | cons p ps => simp [tokens, List.modifyHead]
  | cons x xs ih =>
    intro pre hpre
    by_cases hx : isDelim x = true
    · cases pre with
      | nil => exact absurd rfl hpre
      | cons p ps => simp [tokens, List.modifyHead, hx]
    · have hx' : isDelim x = false := by simpa using hx
      have h := ih (pre ++ [x]) (by simp)
      simp only [List.splitOnP_cons, hx', List.modifyHead_modifyHead, Bool.false_eq_true,
        if_false, List.takeWhile_cons, List.dropWhile_cons, Bool.not_false, if_true]
      have hfun : ((fun t => pre ++ t) ∘ List.cons x) = (fun t => (pre ++ [x]) ++ t) := by
        funext t; simp
      rw [hfun, h]
      simp

theorem tokens_cons_nondelim (c : Char) (s : CStr) (h : isDelim c = false) :
    tokens (c :: s) = (c :: s.takeWhile (fun x => !isDelim x))
      :: tokens (s.dropWhile (fun x => !isDelim x)) := by
  have := tokens_modifyHead s [c] (by simp)
  simpa [tokens, h] using this

theorem tokens_dropWhile (s : CStr) : tokens (s.dropWhile isDelim) = tokens s := by
  induction s with
  | nil => rfl
  | cons c cs ih =>
    by_cases hc : isDelim c = true
    · simp [List.dropWhile_cons, hc, ih, tokens_cons_delim]
    · simp [List.dropWhile_cons, hc]

/-- Dropping the delimiter that ended a token changes neither the tokens nor
the trimmed text that follow. -/
theorem drop_one_after_token (s : CStr) :
    tokens ((s.dropWhile (fun x => !isDelim x)).drop 1)
        = tokens (s.dropWhile (fun x => !isDelim x)) ∧
      ((s.dropWhile (fun x => !isDelim x)).drop 1).dropWhile isDelim
        = (s.dropWhile (fun x => !isDelim x)).dropWhile isDelim := by
  induction s with
  | nil => simp
  | cons c cs ih =>
    by_cases hc : isDelim c = true
    · simp [List.dropWhile_cons, hc, tokens_cons_delim]
    · simpa [List.dropWhile_cons, hc] using ih

/-- What one `strtok_r` call returns, in terms of the tokens of the text at
the scan position. -/
theorem strtok_r_none (s : CStr) (h : tokens s = []) : strtok_r s = (none, []) := by
  have h2 := tokens_dropWhile s
  unfold strtok_r
  cases hd : s.dropWhile isDelim with
  | nil => rfl
  | cons c cs =>
    have hc : isDelim c = false := by
      have := List.head_dropWhile_not isDelim s (by simp [hd])
      simpa [hd] using this
    rw [hd, tokens_cons_nondelim c cs hc, h] at h2
    exact absurd h2 (by simp)

theorem strtok_r_some (s : CStr) (t : CStr) (ts : List CStr) (h : tokens s = t :: ts) :
    ∃ save, strtok_r s = (some t, save) ∧ tokens save = ts ∧
      save.length < s.length ∧
      ∀ n, (afterTokens n save).dropWhile isDelim
            = (afterTokens (n + 1) s).dropWhile isDelim := by
  have h2 := tokens_dropWhile s
  cases hd : s.dropWhile isDelim with
  | nil => rw [hd, tokens_nil, h] at h2; exact absurd h2 (by simp)
  | cons c cs =>
    have hc : isDelim c = false := by
      have := List.head_dropWhile_not isDelim s (by simp [hd])
      simpa [hd] using this
    rw [hd, tokens_cons_nondelim c cs hc, h] at h2
    have h3 := drop_one_after_token (c :: cs)
    simp only [List.cons.injEq] at h2
    have htw : (c :: cs).takeWhile (fun x => !isDelim x)
        = c :: cs.takeWhile (fun x => !isDelim x) := by
      simp [List.takeWhile_cons, hc]
    have hdw : (c :: cs).dropWhile (fun x => !isDelim x)
        = cs.dropWhile (fun x => !isDelim x) := by
      simp [List.dropWhile_cons, hc]
    refine ⟨((c :: cs).dropWhile (fun x => !isDelim x)).drop 1, ?_, ?_, ?_, ?_⟩
    · unfold strtok_r
      rw [hd]
      simp only [htw, h2.1]
    · rw [h3.1, hdw]; exact h2.2
    · have l1 : (((c :: cs).dropWhile (fun x => !isDelim x)).drop 1).length
          ≤ ((c :: cs).dropWhile (fun x => !isDelim x)).length := by
        simp
      have l2 : ((c :: cs).dropWhile (fun x => !isDelim x)).length ≤ cs.length := by
        rw [hdw]; exact (List.dropWhile_sublist _).length_le
      have l3 : (c :: cs).length ≤ s.length := by
        rw [← hd]; exact (List.dropWhile_sublist _).length_le
      simp only [List.length_cons] at l3
      omega
    · intro n
      cases n with
      | zero => simp only [afterTokens, hd]; exact h3.2
      | succ m =>
        show (afterTokens m _).dropWhile isDelim = (afterTokens (m + 1) _).dropWhile isDelim
        simp only [afterTokens, hd, h3.2]

theorem takeWhile_dropWhile_run (pre : CStr) (d : Char) (rest : CStr)
    (hpre : ∀ c ∈ pre, isDelim c = false) (hd : isDelim d = true) :
    (pre ++ d :: rest).takeWhile (fun x => !isDelim x) = pre ∧
      (pre ++ d :: rest).dropWhile (fun x => !isDelim x) = d :: rest := by
  induction pre with
  | nil => simp [List.takeWhile_cons, List.dropWhile_cons, hd]
  | cons p ps ih =>
    have hp : isDelim p = false := hpre p (by simp)
    have := ih (fun c hc => hpre c (by simp [hc]))
    simp [List.takeWhile_cons, List.dropWhile_cons, hp, this]

/-- A non-empty delimiter-free run followed by a delimiter is the first token. -/
theorem tokens_run_delim (p : Char) (ps : CStr) (d : Char) (rest : CStr)
    (hpre : ∀ c ∈ p :: ps, isDelim c = false) (hd : isDelim d = true) :
    tokens ((p :: ps) ++ d :: rest) = (p :: ps) :: tokens rest := by
  have hp : isDelim p = false := hpre p (by simp)
  have h := takeWhile_dropWhile_run ps d rest (fun c hc => hpre c (by simp [hc])) hd
  rw [List.cons_append, tokens_cons_nondelim p _ hp, h.1, h.2, tokens_cons_delim d rest hd]

/-! ## The running-format parser -/

/-- The result of `parse_list_units_line` on a line that fits the 4096-byte
local buffer and has at least four tokens. -/
theorem parse_list_units_line_eq (line : CStr) (nn sn dn : Nat) (t1 t2 t3 t4 : CStr)
    (ts : List CStr) (hlen : line.length ≤ 4095)
    (htok : tokens line = t1 :: t2 :: t3 :: t4 :: ts) :
    parse_list_units_line line nn sn dn =
      { name := t1.take (nn - 1), state := t3.take (sn - 1),
        desc := ((afterTokens 4 line).dropWhile isDelim).take (dn - 1) } := by
  obtain ⟨s1, e1, k1, -, a1⟩ := strtok_r_some line t1 _ htok
  obtain ⟨s2, e2, k2, -, a2⟩ := strtok_r_some s1 t2 _ k1
  obtain ⟨s3, e3, k3, -, a3⟩ := strtok_r_some s2 t3 _ k2
  obtain ⟨s4, e4, -, -, a4⟩ := strtok_r_some s3 t4 _ k3
  have hbuf : strncpy_term line 4096 = line := by
    unfold strncpy_term
    exact List.take_of_length_le (by omega)
  have hdesc : s4.dropWhile isDelim = (afterTokens 4 line).dropWhile isDelim := by
    have := a4 0
    rw [a3 1, a2 2, a1 3] at this
    simpa [afterTokens] using this
  unfold parse_list_units_line
  rw [hbuf]
  simp only [e1, e2, e3, e4, strncpy_term, hdesc]

/-- C1 (amended).  For every running-format line of at most 4095 bytes with at
least four whitespace-separated tokens, `parse_list_units_line` returns as name
the 1st token cut to the `nn - 1` bytes the name buffer holds, as state the 3rd
token (the ACTIVE field) cut to `sn - 1` bytes, and as description the text
after the 4th token, leading blanks and tabs stripped, cut to `dn - 1` bytes. -/
theorem parse_list_units_line_spec (line : CStr) (nn sn dn : Nat) (t1 t2 t3 t4 : CStr)
    (ts : List CStr) (_hnn : 0 < nn) (_hsn : 0 < sn) (_hdn : 0 < dn)
    (hlen : line.length ≤ 4095)
    (htok : tokens line = t1 :: t2 :: t3 :: t4 :: ts) :
    (parse_list_units_line line nn sn dn).name = t1.take (nn - 1) ∧
      (parse_list_units_line line nn sn dn).state = t3.take (sn - 1) ∧
      (parse_list_units_line line nn sn dn).desc
        = ((afterTokens 4 line).dropWhile isDelim).take (dn - 1) := by
  rw [parse_list_units_line_eq line nn sn dn t1 t2 t3 t4 ts hlen htok]
  exact ⟨rfl, rfl, rfl⟩

/-- The worked example of the specification, through `parse_list_units_line_spec`. -/
theorem parse_list_units_line_spec_witness :
    (parse_list_units_line "ssh.service loaded active running OpenSSH Daemon".toList
        512 128 2048).name = "ssh.service".toList ∧
      (parse_list_units_line "ssh.service loaded active running OpenSSH Daemon".toList
        512 128 2048).state = "active".toList ∧
      (parse_list_units_line "ssh.service loaded active running OpenSSH Daemon".toList
        512 128 2048).desc = "OpenSSH Daemon".toList :=
  parse_list_units_line_spec "ssh.service loaded active running OpenSSH Daemon".toList
    512 128 2048 "ssh.service".toList "loaded".toList "active".toList "running".toList
    ["OpenSSH".toList, "Daemon".toList] (by decide) (by decide) (by decide) (by decide)
    (by decide)

/-- C1 (counterexample).  `longNameLine` has six tokens, the first of them 512
bytes long; with the buffer sizes of `populate_store_parsed` the parser returns
a name of 511 bytes, which is not the 1st token. -/
theorem parse_list_units_line_truncates_name :
    tokens longNameLine
        = [List.replicate 512 'a', "loaded".toList, "active".toList, "running".toList,
            "OpenSSH".toList, "Daemon".toList] ∧
      (parse_list_units_line longNameLine 512 128 2048).name = List.replicate 511 'a' ∧
      (parse_list_units_line longNameLine 512 128 2048).name ≠ List.replicate 512 'a' := by
  have htok : tokens longNameLine
      = [List.replicate 512 'a', "loaded".toList, "active".toList, "running".toList,
          "OpenSSH".toList, "Daemon".toList] := by
    have h := tokens_run_delim 'a' (List.replicate 511 'a') ' '
      "loaded active running OpenSSH Daemon".toList
      (by
        intro c hc
        have : c = 'a' := by
          rcases List.mem_cons.1 hc with h | h
          · exact h
          · exact List.eq_of_mem_replicate h
        subst this; decide)
      (by decide)
    have h2 : tokens "loaded active running OpenSSH Daemon".toList
        = ["loaded".toList, "active".toList, "running".toList,
            "OpenSSH".toList, "Daemon".toList] := by decide
    rw [h2] at h
    exact h
  have hlen : longNameLine.length ≤ 4095 := by
    unfold longNameLine
    rw [List.length_append, List.length_replicate]
    decide
  have hname : (parse_list_units_line longNameLine 512 128 2048).name
      = List.replicate 511 'a' := by
    rw [parse_list_units_line_eq longNameLine 512 128 2048 _ _ _ _ _ hlen htok]
    show (List.replicate 512 'a').take (512 - 1) = List.replicate 511 'a'
    rw [List.take_replicate]
    have hmin : min (512 - 1) 512 = 511 := by decide
    rw [hmin]
  refine ⟨htok, hname, ?_⟩
  rw [hname]
  intro h
  have hl := congrArg List.length h
  rw [List.length_replicate, List.length_replicate] at hl
  exact absurd hl (by decide)

/-! ## The files-format parser -/

/-- With a budget of at least the length of the remaining text the loop runs
to completion and leaves in `last` the last token of that text, if any. -/
theorem last_token_loop_eq : ∀ (fuel : Nat) (save : CStr) (last : Option CStr),
    save.length ≤ fuel →
    last_token_loop fuel save last
      = match (tokens save).getLast? with
        | some l => some l
        | none => last := by
  intro fuel
  induction fuel with
  | zero =>
    intro save last h
    have : save = [] := List.length_eq_zero.1 (Nat.le_zero.1 h)
    subst this
    simp [last_token_loop, tokens_nil]
  | succ f ih =>
    intro save last h
    cases ht : tokens save with
    | nil =>
      simp [last_token_loop, strtok_r_none save ht]
    | cons t ts =>
      obtain ⟨save', e, k, hl, -⟩ := strtok_r_some save t ts ht
      simp only [last_token_loop, e]
      rw [ih save' (some t) (by omega), k, List.getLast?_cons]
      cases ts.getLast? <;> rfl

/-- The result of `parse_list_unit_files_line` on a line that fits the
4096-byte local buffer and has at least one token. -/
theorem parse_list_unit_files_line_eq (line : CStr) (nn sn dn : Nat) (t1 : CStr)
    (ts : List CStr) (hlen : line.length ≤ 4095) (htok : tokens line = t1 :: ts) :
    parse_list_unit_files_line line nn sn dn =
      { name := t1.take (nn - 1),
        state := match ts.getLast? with
          | some l => l.take (sn - 1)
          | none => [],
        desc := [] } := by
  obtain ⟨s1, e1, k1, hl, -⟩ := strtok_r_some line t1 _ htok
  have hbuf : strncpy_term line 4096 = line := by
    unfold strncpy_term
    exact List.take_of_length_le (by omega)
  unfold parse_list_unit_files_line
  rw [hbuf]
  simp only [e1, strncpy_term]
  rw [last_token_loop_eq line.length s1 none (by omega), k1]
  cases ts.getLast? <;> rfl

/-- C2 (amended).  For every files-format line of at most 4095 bytes with at
least one token, `parse_list_unit_files_line` returns as name the first token
cut to the `nn - 1` bytes the name buffer holds, an empty description, and as
state the last token of the line cut to `sn - 1` bytes when the line has two
tokens or more, and the empty string when the first token is the only one. -/
theorem parse_list_unit_files_line_spec (line : CStr) (nn sn dn : Nat) (t1 : CStr)
    (ts : List CStr) (_hnn : 0 < nn) (_hsn : 0 < sn) (_hdn : 0 < dn)
    (hlen : line.length ≤ 4095) (htok : tokens line = t1 :: ts) :
    (parse_list_unit_files_line line nn sn dn).name = t1.take (nn - 1) ∧
      (parse_list_unit_files_line line nn sn dn).desc = [] ∧
      (ts = [] → (parse_list_unit_files_line line nn sn dn).state = []) ∧
      (∀ l, ts ≠ [] → (tokens line).getLast? = some l →
        (parse_list_unit_files_line line nn sn dn).state = l.take (sn - 1)) := by
  rw [parse_list_unit_files_line_eq line nn sn dn t1 ts hlen htok]
  refine ⟨rfl, rfl, ?_, ?_⟩
  · intro h; subst h; rfl
  · intro l hne hl
    rw [htok] at hl
    cases ts with
    | nil => exact absurd rfl hne
    | cons u us =>
      rw [List.getLast?_cons_cons] at hl
      simp only [hl]

/-- The worked example of the specification, through
`parse_list_unit_files_line_spec`. -/
theorem parse_list_unit_files_line_spec_witness :
    (parse_list_unit_files_line "apache2.service                       enabled".toList
        512 128 2048).name = "apache2.service".toList ∧
      (parse_list_unit_files_line "apache2.service                       enabled".toList
        512 128 2048).desc = [] ∧
      (parse_list_unit_files_line "apache2.service                       enabled".toList
        512 128 2048).state = "enabled".toList := by
  have h := parse_list_unit_files_line_spec
    "apache2.service                       enabled".toList 512 128 2048
    "apache2.service".toList ["enabled".toList] (by decide) (by decide) (by decide)
    (by decide) (by decide)
  exact ⟨h.1, h.2.1, h.2.2.2 "enabled".toList (by decide) (by decide)⟩

/-- C2 (counterexample).  The line `"apache2.service"` has exactly one token,
so that token is also its last one, yet the parser returns an empty state. -/
theorem parse_list_unit_files_line_single_token :
    tokens "apache2.service".toList = ["apache2.service".toList] ∧
      (tokens "apache2.service".toList).getLast? = some "apache2.service".toList ∧
      (parse_list_unit_files_line "apache2.service".toList 512 128 2048).name
        = "apache2.service".toList ∧
      (parse_list_unit_files_line "apache2.service".toList 512 128 2048).state = [] := by
  decide

/-! ## The filter engine -/

/-- `g_strstr_len` finds an occurrence exactly when the needle is a substring
of the haystack. -/
theorem g_strstr_len_isSome (hay needle : CStr) :
    (g_strstr_len hay needle).isSome = true ↔ needle <:+: hay := by
  induction hay with
  | nil =>
    by_cases h : needle = []
    · simp [g_strstr_len, h]
    · simp [g_strstr_len, h]
  | cons x xs ih =>
    unfold g_strstr_len
    by_cases hp : needle.isPrefixOf (x :: xs) = true
    · simp only [hp, if_true, Option.isSome_some, true_iff]
      exact (List.isPrefixOf_iff_prefix.1 hp).isInfix
    · simp only [hp, Bool.false_eq_true, if_false]
      rw [ih, List.infix_cons_iff]
      constructor
      · intro h; exact Or.inr h
      · intro h
        rcases h with h | h
        · exact absurd (List.isPrefixOf_iff_prefix.2 h) hp
        · exact h

theorem filter_step_eq (strdown : CStr → CStr) (flt_low : CStr) (col : Option CStr)
    (matched : Bool) :
    (filter_step strdown flt_low col matched = true) ↔
      (matched = true ∨ ∃ s, col = some s ∧ flt_low <:+: strdown s) := by
  cases col with
  | none => simp [filter_step]
  | some s =>
    cases matched with
    | true => simp [filter_step]
    | false =>
      have := g_strstr_len_isSome (strdown s) flt_low
      by_cases h : (g_strstr_len (strdown s) flt_low).isSome = true
      · simp [filter_step, h, this.1 h]
      · have h2 : ¬ flt_low <:+: strdown s := fun hh => h (this.2 hh)
        simp [filter_step, h, h2]

/-- C3.  `service_filter_visible` shows every row when the query is empty; for
a non-empty query it shows a row exactly when the lower-cased query is a
substring of the lower-cased name, description, PID or state of the row.  The
right-hand side is a disjunction, so the order in which the code tries the
four fields does not matter. -/
theorem service_filter_visible_spec (strdown : CStr → CStr) (query : CStr) (row : Row) :
    (query = [] → service_filter_visible strdown (some query) row = true) ∧
      (query ≠ [] →
        (service_filter_visible strdown (some query) row = true ↔
          ((∃ s, row.name = some s ∧ strdown query <:+: strdown s) ∨
            (∃ s, row.desc = some s ∧ strdown query <:+: strdown s) ∨
            (∃ s, row.pid = some s ∧ strdown query <:+: strdown s) ∨
            (∃ s, row.state = some s ∧ strdown query <:+: strdown s)))) := by
  constructor
  · intro h; subst h; rfl
  · intro h
    cases query with
    | nil => exact absurd rfl h
    | cons q qs =>
      simp only [service_filter_visible, filter_step_eq]
      simp only [Bool.false_eq_true, false_or, or_assoc]

/-- A row that the query `"SSH"` matches through its name only, and the empty
query, through `service_filter_visible_spec`. -/
theorem service_filter_visible_spec_witness :
    service_filter_visible asciiDown (some [])
        { name := some "ssh.service".toList, state := some "active".toList,
          pid := some "812".toList, desc := some "OpenBSD Secure Shell server".toList } = true ∧
      service_filter_visible asciiDown (some "SSH".toList)
        { name := some "ssh.service".toList, state := some "active".toList,
          pid := some "812".toList, desc := some "OpenBSD Secure Shell server".toList } = true :=
  ⟨(service_filter_visible_spec asciiDown []
      { name := some "ssh.service".toList, state := some "active".toList,
        pid := some "812".toList, desc := some "OpenBSD Secure Shell server".toList }).1 rfl,
   ((service_filter_visible_spec asciiDown "SSH".toList
      { name := some "ssh.service".toList, state := some "active".toList,
        pid := some "812".toList, desc := some "OpenBSD Secure Shell server".toList }).2
      (by decide)).2
      (Or.inl ⟨"ssh.service".toList, rfl, by decide⟩)⟩

/-! ## The synchronizer -/

theorem get_unit_property_value_fst (popen : CStr → Option CStr) (unit prop : CStr)
    (n : Nat) (tr : List Event) :
    (get_unit_property_value popen unit prop n tr).1 = resolver_value popen unit prop n := by
  unfold resolver_value get_unit_property_value
  by_cases hn : n = 0
  · simp [hn]
  · simp only [hn, if_false]
    cases hp : popen (property_cmd unit prop) with
    | none => rfl
    | some out =>
      cases hf : fgets n out with
      | none => simp only [hf]
      | some r => simp only [hf]

/-- The row `populate_row` builds from a chunk is the specified record of the
chunk without its trailing newline; an empty chunk is skipped. -/
theorem populate_row_fst (popen : CStr → Option CStr) (mode : Int) (buf : CStr)
    (tr : List Event) :
    (populate_row popen mode buf tr).1
      = if trim_newline buf = [] then none
        else some (spec_record popen mode (trim_newline buf)) := by
  unfold populate_row
  by_cases h : trim_newline buf = []
  · simp [h]
  · simp only [h, if_false]
    unfold spec_record strncpy_term
    generalize (if mode = 1 then parse_list_unit_files_line (trim_newline buf) 512 128 2048
      else parse_list_units_line (trim_newline buf) 512 128 2048) = p
    by_cases hd : p.desc = []
    · simp only [hd, if_true, get_unit_property_value_fst]
      rfl
    · simp only [hd, if_false, get_unit_property_value_fst]
      rfl

/-- C4.  The row built during synchronization for a non-empty line stores the
empty string as PID when the resolver reports `MainPID` as exactly `"0"` for
the row's name, and stores the resolver's value unchanged in every other case
(in particular for every other numeral). -/
theorem populate_row_pid (popen : CStr → Option CStr) (mode : Int) (buf : CStr)
    (tr : List Event) (h : trim_newline buf ≠ []) :
    ∃ row name, (populate_row popen mode buf tr).1 = some row ∧ row.name = some name ∧
      (resolver_value popen name "MainPID".toList 64 = "0".toList → row.pid = some []) ∧
      (resolver_value popen name "MainPID".toList 64 ≠ "0".toList →
        row.pid = some (resolver_value popen name "MainPID".toList 64)) := by
  rw [populate_row_fst, if_neg h]
  refine ⟨_, _, rfl, rfl, ?_, ?_⟩
  · intro h0
    simp only [spec_record, h0, if_true]
  · intro h0
    simp only [spec_record, h0, if_false]

/-- A line of the running listing, through `populate_row_pid`. -/
theorem populate_row_pid_witness :
    trim_newline "ssh.service loaded active running OpenSSH Daemon\n".toList ≠ [] ∧
      ∃ row name,
        (populate_row demo_popen 0
          "ssh.service loaded active running OpenSSH Daemon\n".toList []).1 = some row ∧
        row.name = some name ∧
        (resolver_value demo_popen name "MainPID".toList 64 = "0".toList →
          row.pid = some []) ∧
        (resolver_value demo_popen name "MainPID".toList 64 ≠ "0".toList →
          row.pid = some (resolver_value demo_popen name "MainPID".toList 64)) :=
  ⟨by decide,
   populate_row_pid demo_popen 0
     "ssh.service loaded active running OpenSSH Daemon\n".toList [] (by decide)⟩

/-! ### Reading the listing line by line -/

theorem fgets_chunk_all (l : CStr) : ∀ (k : Nat), '\n' ∉ l → l.length ≤ k →
    fgets_chunk k l = (l, []) := by
  induction l with
  | nil => intro k _ _; cases k <;> rfl
  | cons c cs ih =>
    intro k hnl hk
    cases k with
    | zero => simp at hk
    | succ k =>
      have hc : c ≠ '\n' := fun h => hnl (by simp [h])
      have hcs : '\n' ∉ cs := fun h => hnl (by simp [h])
      have := ih k hcs (by simpa using hk)
      simp [fgets_chunk, hc, this]

theorem fgets_chunk_line (l : CStr) (rest : CStr) : ∀ (k : Nat), '\n' ∉ l → l.length < k →
    fgets_chunk k (l ++ '\n' :: rest) = (l ++ ['\n'], rest) := by
  induction l with
  | nil =>
    intro k _ hk
    cases k with
    | zero => simp at hk
    | succ k => simp [fgets_chunk]
  | cons c cs ih =>
    intro k hnl hk
    cases k with
    | zero => simp at hk
    | succ k =>
      have hc : c ≠ '\n' := fun h => hnl (by simp [h])
      have hcs : '\n' ∉ cs := fun h => hnl (by simp [h])
      have := ih k hcs (by simpa using hk)
      simp [fgets_chunk, hc, this]

theorem fgets_chunk_full (l : CStr) (rest : CStr) : '\n' ∉ l →
    fgets_chunk l.length (l ++ rest) = (l, rest) := by
  induction l with
  | nil => intro _; simp [fgets_chunk]
  | cons c cs ih =>
    intro hnl
    have hc : c ≠ '\n' := fun h => hnl (by simp [h])
    have hcs : '\n' ∉ cs := fun h => hnl (by simp [h])
    simp [fgets_chunk, hc, ih hcs]

theorem trim_newline_line (l : CStr) : trim_newline (l ++ ['\n']) = l := by
  simp [trim_newline]

theorem trim_newline_id (l : CStr) (h : '\n' ∉ l) : trim_newline l = l := by
  unfold trim_newline
  have : l.getLast? ≠ some '\n' := by
    intro hl
    exact h (List.mem_of_getLast?_eq_some hl)
  simp [this]

/-- One iteration of the read loop: the chunk `fgets` stored is skipped when
it is empty after trimming, and appended as its specified record otherwise. -/
theorem populate_loop_step (popen : CStr → Option CStr) (mode : Int) (f : Nat)
    (stream buf rest : CStr) (store : Store) (tr : List Event)
    (hf : fgets 4096 stream = some (buf, rest)) :
    ∃ tr2, populate_loop popen mode (f + 1) stream store tr
      = populate_loop popen mode f rest
          (store ++ (if trim_newline buf = [] then []
                     else [spec_record popen mode (trim_newline buf)])) tr2 := by
  have h1 := populate_row_fst popen mode buf tr
  simp only [populate_loop, hf]
  cases hr : populate_row popen mode buf tr with
  | mk ro tr2 =>
    rw [hr] at h1
    simp only at h1
    refine ⟨tr2, ?_⟩
    by_cases ht : trim_newline buf = []
    · rw [if_pos ht] at h1
      subst h1
      simp [ht]
    · rw [if_neg ht] at h1
      subst h1
      simp [ht]

theorem populate_loop_nil (popen : CStr → Option CStr) (mode : Int) (f : Nat)
    (store : Store) (tr : List Event) :
    populate_loop popen mode f [] store tr = (store, tr) := by
  cases f <;> simp [populate_loop, fgets]

/-- The read loop over a stream of newline-terminated lines followed by a
final unterminated piece: one specified record per non-empty line, in order. -/
theorem populate_loop_fst (popen : CStr → Option CStr) (mode : Int) (tail : CStr)
    (htail : '\n' ∉ tail) (htl : tail.length ≤ 4095) :
    ∀ (lines : List CStr) (fuel : Nat) (store : Store) (tr : List Event),
      (∀ l ∈ lines, '\n' ∉ l ∧ l.length ≤ 4095) →
      (emit lines ++ tail).length ≤ fuel →
      (populate_loop popen mode fuel (emit lines ++ tail) store tr).1
        = store ++ ((lines ++ [tail]).filter (fun l => l ≠ [])).map
            (spec_record popen mode) := by
  intro lines
  induction lines with
  | nil =>
    intro fuel store tr _ hfuel
    simp only [emit, List.flatMap_nil, List.nil_append] at hfuel ⊢
    by_cases ht : tail = []
    · subst ht
      simp [populate_loop_nil]
    · cases fuel with
      | zero =>
        exact absurd (List.length_eq_zero.1 (Nat.le_zero.1 hfuel)) ht
      | succ f =>
        have hf : fgets 4096 tail = some (tail, []) := by
          simp only [fgets, ht, if_false]
          rw [fgets_chunk_all tail _ htail (by omega)]
        obtain ⟨tr2, e⟩ := populate_loop_step popen mode f tail tail [] store tr hf
        rw [e, populate_loop_nil, trim_newline_id tail htail]
        simp [ht]
  | cons l ls ih =>
    intro fuel store tr hl hfuel
    have hl0 := hl l (by simp)
    have hls : ∀ x ∈ ls, '\n' ∉ x ∧ x.length ≤ 4095 := fun x hx => hl x (by simp [hx])
    have hstream : emit (l :: ls) ++ tail = l ++ '\n' :: (emit ls ++ tail) := by
      simp [emit]
    rw [hstream] at hfuel ⊢
    simp only [List.length_append, List.length_cons] at hfuel
    have hne : l ++ '\n' :: (emit ls ++ tail) ≠ [] := by simp
    cases fuel with
    | zero => omega
    | succ f =>
      by_cases hlen : l.length < 4095
      · have hf : fgets 4096 (l ++ '\n' :: (emit ls ++ tail))
            = some (l ++ ['\n'], emit ls ++ tail) := by
          simp only [fgets, hne, if_false]
          rw [fgets_chunk_line l _ _ hl0.1 (by omega)]
        obtain ⟨tr2, e⟩ := populate_loop_step popen mode f _ _ _ store tr hf
        rw [e, trim_newline_line, ih f _ tr2 hls (by simp only [List.length_append]; omega)]
        by_cases hle : l = []
        · simp [hle]
        · simp [hle]
      · have hlen2 : l.length = 4095 := by omega
        have hf : fgets 4096 (l ++ '\n' :: (emit ls ++ tail))
            = some (l, '\n' :: (emit ls ++ tail)) := by
          simp only [fgets, hne, if_false]
          have := fgets_chunk_full l ('\n' :: (emit ls ++ tail)) hl0.1
          rw [hlen2] at this
          rw [this]
        have hle : l ≠ [] := by
          intro h; rw [h] at hlen2; simp at hlen2
        obtain ⟨tr2, e⟩ := populate_loop_step popen mode f _ _ _ store tr hf
        rw [e, trim_newline_id l hl0.1]
        cases f with
        | zero => omega
        | succ g =>
          have hf2 : fgets 4096 ('\n' :: (emit ls ++ tail))
              = some (['\n'], emit ls ++ tail) := by
            simp [fgets, fgets_chunk]
          obtain ⟨tr3, e3⟩ := populate_loop_step popen mode g _ _ _
            (store ++ (if l = [] then [] else [spec_record popen mode l])) tr2 hf2
          rw [e3, ih g _ tr3 hls (by simp only [List.length_append]; omega)]
          have htn : trim_newline ['\n'] = [] := by decide
          simp [hle, htn]

/-- C5 (amended).  For every sequence of lines of at most 4095 bytes each
that a listing command emits (newline-terminated lines, then possibly a final
unterminated one), `populate_store_parsed` replaces the store by exactly one
record per non-empty line, in the order of the lines, dropping none; the record
of a line is `spec_record`: name = parsed name, or the raw line cut to 511
bytes when the parsed name is empty; state = parsed state; description = parsed
description, or the resolver's Description when that is empty; PID = the
resolver's MainPID with `"0"` replaced by the empty string. -/
theorem populate_store_parsed_records (popen : CStr → Option CStr) (old : Store)
    (cmd : CStr) (mode : Int) (tr : List Event) (lines : List CStr) (tail : CStr)
    (hlines : ∀ l ∈ lines, '\n' ∉ l ∧ l.length ≤ 4095)
    (htail : '\n' ∉ tail ∧ tail.length ≤ 4095)
    (hcmd : popen cmd = some (emit lines ++ tail)) :
    (populate_store_parsed popen (some old) cmd mode tr).1
      = some (((lines ++ [tail]).filter (fun l => l ≠ [])).map (spec_record popen mode)) := by
  simp only [populate_store_parsed, hcmd]
  rw [populate_loop_fst popen mode tail htail.1 htail.2 lines _ [] _ hlines (le_refl _)]
  simp

/-- Two units and an empty line between them, through
`populate_store_parsed_records`: two records, in the order of the listing. -/
theorem populate_store_parsed_records_witness :
    (populate_store_parsed demo_listing_popen (some []) cmd_running 0 []).1
      = some [
          { name := some "ssh.service".toList, state := some "active".toList,
            pid := some [], desc := some "OpenSSH Daemon".toList },
          { name := some "cron.service".toList, state := some "active".toList,
            pid := some "812".toList,
            desc := some "Regular background program processing daemon".toList }] :=
  (populate_store_parsed_records demo_listing_popen [] cmd_running 0 []
      ["ssh.service loaded active running OpenSSH Daemon".toList, [],
       "cron.service loaded active running".toList] []
      (by decide) (by decide) (by decide)).trans (by decide)

/-! ### A line longer than the read buffer -/

/-- A non-empty delimiter-free line is its own single token. -/
theorem tokens_run (l : CStr) (hne : l ≠ []) (h : ∀ c ∈ l, isDelim c = false) :
    tokens l = [l] := by
  cases l with
  | nil => exact absurd rfl hne
  | cons c cs =>
    have hc : isDelim c = false := h c (by simp)
    have hcs : ∀ x ∈ cs, (!isDelim x) = true := fun x hx => by
      simp [h x (by simp [hx])]
    rw [tokens_cons_nondelim c cs hc, List.takeWhile_eq_self_iff.2 hcs,
      List.dropWhile_eq_nil_iff.2 hcs, tokens_nil]

/-- The result of `parse_list_units_line` on a line with exactly one token. -/
theorem parse_list_units_line_one (line : CStr) (nn sn dn : Nat) (t1 : CStr)
    (hlen : line.length ≤ 4095) (htok : tokens line = [t1]) :
    parse_list_units_line line nn sn dn
      = { name := t1.take (nn - 1), state := [], desc := [] } := by
  obtain ⟨s1, e1, k1, -, -⟩ := strtok_r_some line t1 _ htok
  have e2 := strtok_r_none s1 k1
  have e3 : strtok_r [] = (none, []) := rfl
  have hbuf : strncpy_term line 4096 = line := by
    unfold strncpy_term
    exact List.take_of_length_le (by omega)
  unfold parse_list_units_line
  rw [hbuf]
  simp [e1, e2, e3, strncpy_term]

/-- Every command line of the resolver starts with `systemctl s`. -/
theorem property_cmd_take (unit prop : CStr) :
    (property_cmd unit prop).take 11 = "systemctl s".toList := by
  unfold property_cmd
  rw [List.take_take]
  simp only [List.append_assoc]
  rw [List.take_append_of_le_length (by decide)]
  decide

theorem property_cmd_ne_running (unit prop : CStr) : property_cmd unit prop ≠ cmd_running := by
  intro h
  have := property_cmd_take unit prop
  rw [h] at this
  exact absurd this (by decide)

theorem property_cmd_ne_enabled (unit prop : CStr) : property_cmd unit prop ≠ cmd_enabled := by
  intro h
  have := property_cmd_take unit prop
  rw [h] at this
  exact absurd this (by decide)

theorem property_cmd_ne_all (unit prop : CStr) : property_cmd unit prop ≠ cmd_all := by
  intro h
  have := property_cmd_take unit prop
  rw [h] at this
  exact absurd this (by decide)

theorem long_popen_resolver (unit prop : CStr) (n : Nat) :
    resolver_value long_popen unit prop n = [] := by
  unfold resolver_value get_unit_property_value
  by_cases hn : n = 0
  · simp [hn]
  · simp [hn, long_popen, property_cmd_ne_running]

/-- C5 (counterexample).  In the world `long_popen` the running listing emits
exactly one line, of 4096 bytes; `fgets` hands it to the loop in two chunks and
the store ends up with two records for the one line. -/
theorem populate_store_parsed_splits_long_line :
    long_popen cmd_running = some (emit [List.replicate 4096 'a']) ∧
      (populate_store_parsed long_popen (some []) cmd_running 0 []).1
        = some [
            { name := some (List.replicate 511 'a'), state := some [], pid := some [],
              desc := some [] },
            { name := some ['a'], state := some [], pid := some [], desc := some [] }] := by
  refine ⟨rfl, ?_⟩
  have hcmd : long_popen cmd_running = some (List.replicate 4095 'a' ++ ['a', '\n']) := by
    have h1 : List.replicate 4096 'a' = List.replicate 4095 'a' ++ ['a'] :=
      List.replicate_succ' 4095 'a'
    simp only [long_popen, emit, if_true, List.flatMap_cons, List.flatMap_nil,
      List.append_nil, h1, List.append_assoc, List.singleton_append]
  have hnl : '\n' ∉ List.replicate 4095 'a' := by
    intro h
    exact absurd (List.eq_of_mem_replicate h) (by decide)
  have hlen : (List.replicate 4095 'a' ++ ['a', '\n']).length = 4096 + 1 := by
    rw [List.length_append, List.length_replicate]; rfl
  have hf1 : fgets 4096 (List.replicate 4095 'a' ++ ['a', '\n'])
      = some (List.replicate 4095 'a', ['a', '\n']) := by
    have hne : List.replicate 4095 'a' ++ ['a', '\n'] ≠ [] := by
      intro h
      have := congrArg List.length h
      rw [hlen] at this
      exact absurd this (by decide)
    have := fgets_chunk_full (List.replicate 4095 'a') ['a', '\n'] hnl
    rw [List.length_replicate] at this
    simp only [fgets, hne, if_false]
    rw [show 4096 - 1 = 4095 from rfl, this]
  have hf2 : fgets 4096 ['a', '\n'] = some (['a', '\n'], []) := by decide
  have hrow1 : spec_record long_popen 0 (List.replicate 4095 'a')
      = { name := some (List.replicate 511 'a'), state := some [], pid := some [],
          desc := some [] } := by
    have htok : tokens (List.replicate 4095 'a') = [List.replicate 4095 'a'] := by
      apply tokens_run
      · intro h
        have := congrArg List.length h
        rw [List.length_replicate] at this
        exact absurd this (by decide)
      · intro c hc
        rw [List.eq_of_mem_replicate hc]; decide
    have hp := parse_list_units_line_one (List.replicate 4095 'a') 512 128 2048 _
      (by rw [List.length_replicate]) htok
    have hname : (List.replicate 4095 'a').take (512 - 1) = List.replicate 511 'a' := by
      rw [List.take_replicate]
      have hmin : min (512 - 1) 4095 = 511 := by decide
      rw [hmin]
    rw [hname] at hp
    have hne : List.replicate 511 'a' ≠ [] := by
      intro h
      have := congrArg List.length h
      rw [List.length_replicate] at this
      exact absurd this (by decide)
    unfold spec_record
    have h01 : ¬ ((0 : Int) = 1) := by decide
    have h0 : ¬ (([] : CStr) = "0".toList) := by decide
    simp only [hp, long_popen_resolver, h01, if_false, hne, h0, if_true]
  have hrow2 : spec_record long_popen 0 ['a']
      = { name := some ['a'], state := some [], pid := some [], desc := some [] } := by
    decide
  simp only [populate_store_parsed, hcmd]
  rw [hlen]
  obtain ⟨tr2, e2⟩ := populate_loop_step long_popen 0 4096 _ _ _ []
    ([] ++ [Event.popen cmd_running]) hf1
  rw [e2, trim_newline_id _ hnl]
  obtain ⟨tr3, e3⟩ := populate_loop_step long_popen 0 4095 _ _ _
    ([] ++ (if List.replicate 4095 'a' = [] then []
            else [spec_record long_popen 0 (List.replicate 4095 'a')])) tr2 hf2
  rw [e3, populate_loop_nil, hrow1]
  have htn : trim_newline ['a', '\n'] = ['a'] := by decide
  rw [htn, hrow2]
  have hne : List.replicate 4095 'a' ≠ [] := by
    intro h
    have := congrArg List.length h
    rw [List.length_replicate] at this
    exact absurd this (by decide)
  have hane : ¬ ((['a'] : CStr) = []) := by decide
  simp only [hne, hane, if_false]
  rfl

/-! ## Actions without a selection -/

theorem get_selected_unit_congr {W : Type} (app app2 : App W)
    (hn : app2.notebook = app.notebook) (hv : app2.views = app.views) :
    get_selected_unit app2 = get_selected_unit app := by
  unfold get_selected_unit
  rw [hn, hv]

/-- C6 (what the code does).  With no unit selected, the Start, Stop and
Restart handlers spawn nothing (trace and world unchanged), leave the stores
unchanged and put "No service selected" on the status bar.  The handler of the
Enable/Disable toggle never returns: under every bound on the depth of nested
"toggled" emissions it is still running when the bound is reached, having
pushed the message once per nesting level, with trace, world and stores
untouched. -/
theorem no_selection_handlers {W : Type} (sys : Sys W) (app : App W)
    (h : get_selected_unit app = none) :
    (on_start_clicked sys app = no_service_selected app ∧
      on_stop_clicked sys app = no_service_selected app ∧
      on_restart_clicked sys app = no_service_selected app ∧
      (no_service_selected app).trace = app.trace ∧
      (no_service_selected app).world = app.world ∧
      (no_service_selected app).stores = app.stores ∧
      status_text (no_service_selected app).statusbar = some "No service selected".toList) ∧
    ∀ depth, ∃ a, on_toggle_enable_toggled depth sys app = Nested.unfinished a ∧
      a.trace = app.trace ∧ a.world = app.world ∧ a.stores = app.stores ∧
      a.statusbar = List.replicate depth ("action".toList, "No service selected".toList)
        ++ app.statusbar := by
  refine ⟨⟨?_, ?_, ?_, rfl, rfl, rfl, rfl⟩, ?_⟩
  · simp only [on_start_clicked, h]
  · simp only [on_stop_clicked, h]
  · simp only [on_restart_clicked, h]
  · intro depth
    induction depth generalizing app with
    | zero => exact ⟨app, rfl, rfl, rfl, rfl, rfl⟩
    | succ d ih =>
      have hsel : get_selected_unit
          { no_service_selected app with toggle_active := !app.toggle_active } = none := by
        exact (get_selected_unit_congr app _ rfl rfl).trans h
      obtain ⟨a, ha, h1, h2, h3, h4⟩ := ih _ hsel
      refine ⟨a, ?_, h1, h2, h3, ?_⟩
      · have hb : ¬ ((no_service_selected app).toggle_active = !app.toggle_active) := by
          show ¬ (app.toggle_active = !app.toggle_active)
          cases app.toggle_active <;> simp
        simp only [on_toggle_enable_toggled, h, hb, if_false]
        exact ha
      · rw [h4]
        show List.replicate d _ ++ (_ :: app.statusbar) = _
        rw [List.replicate_succ']
        simp [no_service_selected, gtk_statusbar_push]

/-- The state `on_activate` builds, through `no_selection_handlers`: Start
reports the missing selection, the toggle handler is still running at nesting
depth 3. -/
theorem no_selection_handlers_witness :
    get_selected_unit activated_app = none ∧
      status_text (on_start_clicked demo_sys activated_app).statusbar
        = some "No service selected".toList ∧
      (on_start_clicked demo_sys activated_app).trace = [] ∧
      ∃ a, on_toggle_enable_toggled 3 demo_sys activated_app = Nested.unfinished a ∧
        a.trace = [] ∧
        a.statusbar = List.replicate 3 ("action".toList, "No service selected".toList)
          ++ activated_app.statusbar := by
  have h := no_selection_handlers demo_sys activated_app rfl
  refine ⟨rfl, ?_, ?_, ?_⟩
  · rw [h.1.1]; exact h.1.2.2.2.2.2.2
  · rw [h.1.1]; exact h.1.2.2.2.1
  · obtain ⟨a, ha, h1, _, _, h4⟩ := h.2 3
    exact ⟨a, ha, h1, h4⟩

/-! ## Traces of the synchronizer and the broker -/

theorem get_unit_property_value_trace (popen : CStr → Option CStr) (unit prop : CStr)
    (n : Nat) (tr : List Event) :
    ∃ evs, (get_unit_property_value popen unit prop n tr).2 = tr ++ evs ∧
      ∀ e ∈ evs, is_resolver_query e = true := by
  have hq : is_resolver_query (Event.popen (property_cmd unit prop)) = true := by
    simp [is_resolver_query, property_cmd_take]
  unfold get_unit_property_value
  by_cases hn : n = 0
  · exact ⟨[], by simp [hn], by simp⟩
  · simp only [hn, if_false]
    refine ⟨[Event.popen (property_cmd unit prop)], ?_, by simpa using hq⟩
    cases hp : popen (property_cmd unit prop) with
    | none => rfl
    | some out =>
      cases hf : fgets n out with
      | none => simp only [hf]
      | some r => simp only [hf]

theorem populate_row_trace (popen : CStr → Option CStr) (mode : Int) (buf : CStr)
    (tr : List Event) :
    ∃ evs, (populate_row popen mode buf tr).2 = tr ++ evs ∧
      ∀ e ∈ evs, is_resolver_query e = true := by
  unfold populate_row
  by_cases h : trim_newline buf = []
  · exact ⟨[], by simp [h], by simp⟩
  · simp only [h, if_false]
    generalize (if mode = 1 then parse_list_unit_files_line (trim_newline buf) 512 128 2048
      else parse_list_units_line (trim_newline buf) 512 128 2048) = p
    by_cases hd : p.desc = []
    · simp only [hd, if_true]
      obtain ⟨e1, h1, q1⟩ := get_unit_property_value_trace popen
        (if p.name = [] then strncpy_term (trim_newline buf) 512 else p.name)
        "Description".toList 2048 tr
      obtain ⟨e2, h2, q2⟩ := get_unit_property_value_trace popen
        (if p.name = [] then strncpy_term (trim_newline buf) 512 else p.name)
        "MainPID".toList 64
        (get_unit_property_value popen
          (if p.name = [] then strncpy_term (trim_newline buf) 512 else p.name)
          "Description".toList 2048 tr).2
      refine ⟨e1 ++ e2, ?_, ?_⟩
      · show (get_unit_property_value _ _ _ _ _).2 = _
        rw [h2, h1, List.append_assoc]
      · intro e he
        rcases List.mem_append.1 he with he | he
        · exact q1 e he
        · exact q2 e he
    · simp only [hd, if_false]
      obtain ⟨e2, h2, q2⟩ := get_unit_property_value_trace popen
        (if p.name = [] then strncpy_term (trim_newline buf) 512 else p.name)
        "MainPID".toList 64 tr
      exact ⟨e2, h2, q2⟩

theorem populate_loop_trace (popen : CStr → Option CStr) (mode : Int) :
    ∀ (fuel : Nat) (stream : CStr) (store : Store) (tr : List Event),
      ∃ evs, (populate_loop popen mode fuel stream store tr).2 = tr ++ evs ∧
        ∀ e ∈ evs, is_resolver_query e = true := by
  intro fuel
  induction fuel with
  | zero => intro stream store tr; exact ⟨[], by simp [populate_loop], by simp⟩
  | succ f ih =>
    intro stream store tr
    cases hf : fgets 4096 stream with
    | none => exact ⟨[], by simp [populate_loop, hf], by simp⟩
    | some br =>
      obtain ⟨buf, rest⟩ := br
      obtain ⟨e1, h1, q1⟩ := populate_row_trace popen mode buf tr
      simp only [populate_loop, hf]
      cases hr : populate_row popen mode buf tr with
      | mk ro tr2 =>
        rw [hr] at h1
        simp only at h1
        subst h1
        cases ro with
        | none =>
          obtain ⟨e2, h2, q2⟩ := ih rest store (tr ++ e1)
          refine ⟨e1 ++ e2, ?_, ?_⟩
          · simp only [h2, List.append_assoc]
          · intro e he
            rcases List.mem_append.1 he with he | he
            · exact q1 e he
            · exact q2 e he
        | some row =>
          obtain ⟨e2, h2, q2⟩ := ih rest (store ++ [row]) (tr ++ e1)
          refine ⟨e1 ++ e2, ?_, ?_⟩
          · simp only [h2, List.append_assoc]
          · intro e he
            rcases List.mem_append.1 he with he | he
            · exact q1 e he
            · exact q2 e he

theorem populate_loop_fst_indep (popen : CStr → Option CStr) (mode : Int) :
    ∀ (fuel : Nat) (stream : CStr) (store : Store) (tr : List Event),
      (populate_loop popen mode fuel stream store tr).1
        = (populate_loop popen mode fuel stream store []).1 := by
  intro fuel
  induction fuel with
  | zero => intro stream store tr; rfl
  | succ f ih =>
    intro stream store tr
    cases hf : fgets 4096 stream with
    | none => simp [populate_loop, hf]
    | some br =>
      obtain ⟨buf, rest⟩ := br
      obtain ⟨t1, e1⟩ := populate_loop_step popen mode f stream buf rest store tr hf
      obtain ⟨t2, e2⟩ := populate_loop_step popen mode f stream buf rest store [] hf
      rw [e1, e2, ih rest _ t1, ih rest _ t2]

/-- A run of `populate_store_parsed` on an existing store: its trace is the
`popen` of the listing command followed by resolver queries only, and the rows
it builds do not depend on the trace it started from. -/
theorem populate_store_parsed_trace (popen : CStr → Option CStr) (store : Option Store)
    (cmd : CStr) (mode : Int) (tr : List Event) (hs : store.isSome = true) :
    (∃ evs, (populate_store_parsed popen store cmd mode tr).2
        = tr ++ Event.popen cmd :: evs ∧ ∀ e ∈ evs, is_resolver_query e = true) ∧
      (populate_store_parsed popen store cmd mode tr).1
        = (populate_store_parsed popen store cmd mode []).1 := by
  cases store with
  | none => simp at hs
  | some old =>
    cases hp : popen cmd with
    | none =>
      refine ⟨⟨[], ?_, by simp⟩, ?_⟩
      · simp [populate_store_parsed, hp]
      · simp [populate_store_parsed, hp]
    | some stream =>
      obtain ⟨evs, h1, q1⟩ := populate_loop_trace popen mode stream.length stream []
        (tr ++ [Event.popen cmd])
      refine ⟨⟨evs, ?_, q1⟩, ?_⟩
      · simp only [populate_store_parsed, hp, h1, List.append_assoc, List.singleton_append]
      · simp only [populate_store_parsed, hp]
        rw [populate_loop_fst_indep popen mode _ _ _ (tr ++ [Event.popen cmd]),
          populate_loop_fst_indep popen mode _ _ _ ([] ++ [Event.popen cmd])]

/-! ## The privilege broker -/

theorem pkexec_trace {W : Type} (sys : Sys W) (w : W) (tr : List Event) (cmd : CStr) :
    (run_command_pkexec_and_collect sys w tr cmd).trace
      = tr ++ [Event.spawn_sync (pkexec_command_line cmd)] := by
  unfold run_command_pkexec_and_collect
  cases hp : sys.g_spawn_command_line_sync w (pkexec_command_line cmd) with
  | mk res w2 => cases res <;> rfl

theorem pkexec_world {W : Type} (sys : Sys W) (w : W) (tr : List Event) (cmd : CStr) :
    (run_command_pkexec_and_collect sys w tr cmd).world
      = (sys.g_spawn_command_line_sync w (pkexec_command_line cmd)).2 := by
  unfold run_command_pkexec_and_collect
  cases hp : sys.g_spawn_command_line_sync w (pkexec_command_line cmd) with
  | mk res w2 => cases res <;> rfl

/-- The primary tier succeeds exactly when pkexec could be run and the wait
status is 0. -/
theorem pkexec_ok_iff {W : Type} (sys : Sys W) (w : W) (tr : List Event) (cmd : CStr) :
    (run_command_pkexec_and_collect sys w tr cmd).ok = true ↔
      ∃ err, (sys.g_spawn_command_line_sync w (pkexec_command_line cmd)).1
        = SpawnSync.done err 0 := by
  unfold run_command_pkexec_and_collect
  cases hp : sys.g_spawn_command_line_sync w (pkexec_command_line cmd) with
  | mk res w2 =>
    cases res with
    | failed g => simp
    | done e st => simp

/-- The fallback tier, case by case. -/
theorem sudo_cases {W : Type} (sys : Sys W) (w : W) (tr : List Event) (cmd : CStr) :
    (prompt_for_password sys w = none ∧
      run_command_with_sudo_and_password sys w tr cmd
        = { ok := false, err := none, world := (sys.gtk_dialog_run w).2,
            trace := tr ++ [Event.dialog] }) ∨
    (∃ pwd w2, prompt_for_password sys w = some pwd ∧
      sys.g_spawn_async_with_pipes (sys.gtk_dialog_run w).2 (sudo_argv cmd) (pwd ++ ['\n'])
        = (none, w2) ∧
      run_command_with_sudo_and_password sys w tr cmd
        = { ok := false, err := none, world := w2,
            trace := tr ++ [Event.dialog, Event.spawn_async (sudo_argv cmd)] }) ∨
    (∃ pwd outbuf status w2, prompt_for_password sys w = some pwd ∧
      sys.g_spawn_async_with_pipes (sys.gtk_dialog_run w).2 (sudo_argv cmd) (pwd ++ ['\n'])
        = (some (outbuf, status), w2) ∧
      run_command_with_sudo_and_password sys w tr cmd
        = { ok := WIFEXITED status && WEXITSTATUS status == 0,
            err := if outbuf = [] then none else some outbuf,
            world := w2,
            trace := tr ++ [Event.dialog, Event.spawn_async (sudo_argv cmd),
                            Event.write_stdin (pwd ++ ['\n'])] }) := by
  unfold run_command_with_sudo_and_password
  cases hpw : prompt_for_password sys w with
  | none => exact Or.inl ⟨rfl, rfl⟩
  | some pwd =>
    cases hs : sys.g_spawn_async_with_pipes (sys.gtk_dialog_run w).2 (sudo_argv cmd)
        (pwd ++ ['\n']) with
    | mk child w2 =>
      cases child with
      | none => exact Or.inr (Or.inl ⟨pwd, w2, rfl, hs, by simp only [hs]⟩)
      | some os =>
        obtain ⟨outbuf, status⟩ := os
        exact Or.inr (Or.inr ⟨pwd, outbuf, status, w2, rfl, hs, by simp only [hs]⟩)

theorem run_privileged_primary {W : Type} (sys : Sys W) (w : W) (tr : List Event)
    (cmd : CStr) (h : (run_command_pkexec_and_collect sys w tr cmd).ok = true) :
    run_privileged sys w tr cmd = run_command_pkexec_and_collect sys w tr cmd := by
  unfold run_privileged
  rw [if_pos h]

theorem run_privileged_fallback {W : Type} (sys : Sys W) (w : W) (tr : List Event)
    (cmd : CStr) (h : (run_command_pkexec_and_collect sys w tr cmd).ok = false) :
    run_privileged sys w tr cmd
      = run_command_with_sudo_and_password sys
          (sys.g_spawn_command_line_sync w (pkexec_command_line cmd)).2
          (tr ++ [Event.spawn_sync (pkexec_command_line cmd)]) cmd := by
  unfold run_privileged
  rw [if_neg (by simp [h]), h, pkexec_trace, pkexec_world]
  cases hk : (run_command_with_sudo_and_password sys
      (sys.g_spawn_command_line_sync w (pkexec_command_line cmd)).2
      (tr ++ [Event.spawn_sync (pkexec_command_line cmd)]) cmd).ok <;>
    cases hr : run_command_with_sudo_and_password sys
      (sys.g_spawn_command_line_sync w (pkexec_command_line cmd)).2
      (tr ++ [Event.spawn_sync (pkexec_command_line cmd)]) cmd <;>
    simp_all

/-- C8.  The broker runs the primary mechanism once and first.  When the
primary exited with status 0 nothing else happens; when it failed (could not be
launched, or exited non-zero) the fallback is entered once: the password
dialog, then at most one spawn of the helper, then at most one write of the
credential.  So the fallback is entered if and only if the primary failed, and
the operation succeeds if and only if the primary exited with status 0, or the
primary failed and the helper was given a credential and exited normally with
status 0. -/
theorem broker_two_states {W : Type} (sys : Sys W) (w : W) (tr : List Event) (cmd : CStr) :
    ∃ new, (run_privileged sys w tr cmd).trace
        = tr ++ Event.spawn_sync (pkexec_command_line cmd) :: new ∧
      ((∃ err, (sys.g_spawn_command_line_sync w (pkexec_command_line cmd)).1
          = SpawnSync.done err 0) → new = []) ∧
      ((¬ ∃ err, (sys.g_spawn_command_line_sync w (pkexec_command_line cmd)).1
          = SpawnSync.done err 0) →
        (new = [Event.dialog] ∨ new = [Event.dialog, Event.spawn_async (sudo_argv cmd)] ∨
          ∃ pwd, new = [Event.dialog, Event.spawn_async (sudo_argv cmd),
                        Event.write_stdin (pwd ++ ['\n'])])) ∧
      (Event.dialog ∈ new ↔
        ¬ ∃ err, (sys.g_spawn_command_line_sync w (pkexec_command_line cmd)).1
          = SpawnSync.done err 0) ∧
      ((run_privileged sys w tr cmd).ok = true ↔
        ((∃ err, (sys.g_spawn_command_line_sync w (pkexec_command_line cmd)).1
            = SpawnSync.done err 0) ∨
          ((¬ ∃ err, (sys.g_spawn_command_line_sync w (pkexec_command_line cmd)).1
              = SpawnSync.done err 0) ∧
            ∃ pwd outbuf status w2,
              prompt_for_password sys
                (sys.g_spawn_command_line_sync w (pkexec_command_line cmd)).2 = some pwd ∧
              sys.g_spawn_async_with_pipes
                (sys.gtk_dialog_run
                  (sys.g_spawn_command_line_sync w (pkexec_command_line cmd)).2).2
                (sudo_argv cmd) (pwd ++ ['\n']) = (some (outbuf, status), w2) ∧
              WIFEXITED status = true ∧ WEXITSTATUS status = 0))) := by
  have hiff := pkexec_ok_iff sys w tr cmd
  by_cases hok : (run_command_pkexec_and_collect sys w tr cmd).ok = true
  · have hp := hiff.1 hok
    refine ⟨[], ?_, fun _ => rfl, fun hn => absurd hp hn, ?_, ?_⟩
    · rw [run_privileged_primary sys w tr cmd hok, pkexec_trace]
    · simp [hp]
    · rw [run_privileged_primary sys w tr cmd hok]
      simp [hok, hp]
  · have hok2 : (run_command_pkexec_and_collect sys w tr cmd).ok = false := by
      simpa using hok
    have hnp : ¬ ∃ err, (sys.g_spawn_command_line_sync w (pkexec_command_line cmd)).1
        = SpawnSync.done err 0 := fun h => hok (hiff.2 h)
    rw [run_privileged_fallback sys w tr cmd hok2]
    rcases sudo_cases sys (sys.g_spawn_command_line_sync w (pkexec_command_line cmd)).2
        (tr ++ [Event.spawn_sync (pkexec_command_line cmd)]) cmd with
      ⟨hpw, hr⟩ | ⟨pwd, w2, hpw, hs, hr⟩ | ⟨pwd, outbuf, status, w2, hpw, hs, hr⟩
    · refine ⟨[Event.dialog], ?_, fun h => absurd h hnp, fun _ => Or.inl rfl, ?_, ?_⟩
      · rw [hr]; simp
      · simp [hnp]
      · rw [hr]; simp [hnp, hpw]
    · refine ⟨[Event.dialog, Event.spawn_async (sudo_argv cmd)], ?_, fun h => absurd h hnp,
        fun _ => Or.inr (Or.inl rfl), ?_, ?_⟩
      · rw [hr]; simp
      · simp [hnp]
      · rw [hr]; simp [hnp, hpw, hs]
    · refine ⟨[Event.dialog, Event.spawn_async (sudo_argv cmd),
          Event.write_stdin (pwd ++ ['\n'])], ?_, fun h => absurd h hnp,
        fun _ => Or.inr (Or.inr ⟨pwd, rfl⟩), ?_, ?_⟩
      · rw [hr]; simp
      · simp [hnp]
      · rw [hr]
        show (WIFEXITED status && WEXITSTATUS status == 0) = true ↔ _
        constructor
        · intro h
          have h2 := Bool.and_eq_true_iff.1 h
          exact Or.inr ⟨hnp, pwd, outbuf, status, w2, hpw, hs, h2.1, by simpa using h2.2⟩
        · rintro (h | ⟨-, pwd2, o2, s2, w3, hp2, hs2, h1, h2⟩)
          · exact absurd h hnp
          · rw [hpw] at hp2
            have hp3 : pwd = pwd2 := Option.some.inj hp2
            subst hp3
            rw [hs] at hs2
            have hst : status = s2 := by
              have := congrArg (fun r => r.1.map (fun q => q.2)) hs2
              simpa using this
            subst hst
            simp [h1, h2]

/-- The scenario "pkexec fails, the operator supplies a password, sudo exits
with status 0", through `broker_two_states`: the operation succeeds. -/
theorem broker_two_states_witness :
    (run_privileged demo_sys 0 [] "systemctl start ssh.service".toList).ok = true := by
  obtain ⟨_, _, _, _, _, h⟩ :=
    broker_two_states demo_sys 0 [] "systemctl start ssh.service".toList
  exact h.2 (Or.inr ⟨(fun ⟨_, he⟩ => by cases he), "secret".toList, [], 0, 2, by decide,
    by decide, by decide, by decide⟩)

/-- C9.  When the primary mechanism fails and the operator cancels the
credential prompt (`prompt_for_password` returns NULL), the broker fails at
once: after the pkexec run and the dialog nothing is spawned, the result is
failure, and the captured text handed back is NULL, whatever the primary
attempt had captured. -/
theorem cancel_fails_without_output {W : Type} (sys : Sys W) (w : W) (tr : List Event)
    (cmd : CStr)
    (hprimary : ¬ ∃ err, (sys.g_spawn_command_line_sync w (pkexec_command_line cmd)).1
        = SpawnSync.done err 0)
    (hcancel : prompt_for_password sys
        (sys.g_spawn_command_line_sync w (pkexec_command_line cmd)).2 = none) :
    (run_privileged sys w tr cmd).ok = false ∧
      (run_privileged sys w tr cmd).err = none ∧
      (run_privileged sys w tr cmd).trace
        = tr ++ [Event.spawn_sync (pkexec_command_line cmd), Event.dialog] := by
  have hok2 : (run_command_pkexec_and_collect sys w tr cmd).ok = false := by
    have := pkexec_ok_iff sys w tr cmd
    cases hb : (run_command_pkexec_and_collect sys w tr cmd).ok with
    | false => rfl
    | true => exact absurd (this.1 hb) hprimary
  rw [run_privileged_fallback sys w tr cmd hok2]
  rcases sudo_cases sys (sys.g_spawn_command_line_sync w (pkexec_command_line cmd)).2
      (tr ++ [Event.spawn_sync (pkexec_command_line cmd)]) cmd with
    ⟨_, hr⟩ | ⟨pwd, w2, hpw, _, _⟩ | ⟨pwd, outbuf, status, w2, hpw, _, _⟩
  · rw [hr]; simp
  · rw [hcancel] at hpw; exact absurd hpw (by simp)
  · rw [hcancel] at hpw; exact absurd hpw (by simp)

/-- In `cancel_sys` pkexec prints a diagnostic and exits with status 127 and
the operator cancels the dialog, through `cancel_fails_without_output`: no
text is handed back. -/
theorem cancel_fails_without_output_witness :
    (run_command_pkexec_and_collect cancel_sys 0 []
        "systemctl start ssh.service".toList).err = some "pkexec: command not found\n".toList ∧
      (run_privileged cancel_sys 0 [] "systemctl start ssh.service".toList).ok = false ∧
      (run_privileged cancel_sys 0 [] "systemctl start ssh.service".toList).err = none ∧
      (run_privileged cancel_sys 0 [] "systemctl start ssh.service".toList).trace
        = [] ++ [Event.spawn_sync (pkexec_command_line "systemctl start ssh.service".toList),
                 Event.dialog] :=
  ⟨rfl, cancel_fails_without_output cancel_sys 0 [] "systemctl start ssh.service".toList
    (fun ⟨_, he⟩ => by cases he) (by decide)⟩

/-! ## The action orchestrator -/

/-- The bodies of the handlers.  When `get_selected_unit` returns unit `u`,
the Start, Stop, Restart and Reload handlers
hand exactly `systemctl start u`, `systemctl stop u`, `systemctl restart u` and
`systemctl reload u` to `run_systemctl_action_and_notify`, and the toggle
handler hands it `systemctl enable u` when the toggle is active and
`systemctl disable u` when it is inactive; with no unit selected, Reload hands
it exactly `systemctl daemon-reload`. -/
theorem handlers_compose {W : Type} (sys : Sys W) (app : App W) :
    (∀ u, get_selected_unit app = some u →
      on_start_clicked sys app
        = run_systemctl_action_and_notify sys app ("systemctl start ".toList ++ u) ∧
      on_stop_clicked sys app
        = run_systemctl_action_and_notify sys app ("systemctl stop ".toList ++ u) ∧
      on_restart_clicked sys app
        = run_systemctl_action_and_notify sys app ("systemctl restart ".toList ++ u) ∧
      on_reload_clicked sys app
        = run_systemctl_action_and_notify sys app ("systemctl reload ".toList ++ u) ∧
      (∀ depth, app.toggle_active = true →
        on_toggle_enable_toggled (depth + 1) sys app
          = Nested.returned
              (run_systemctl_action_and_notify sys app ("systemctl enable ".toList ++ u))) ∧
      (∀ depth, app.toggle_active = false →
        on_toggle_enable_toggled (depth + 1) sys app
          = Nested.returned
              (run_systemctl_action_and_notify sys app ("systemctl disable ".toList ++ u)))) ∧
    (get_selected_unit app = none →
      on_reload_clicked sys app
        = run_systemctl_action_and_notify sys app "systemctl daemon-reload".toList) := by
  constructor
  · intro u h
    refine ⟨?_, ?_, ?_, ?_, ?_, ?_⟩
    · simp only [on_start_clicked, h]
    · simp only [on_stop_clicked, h]
    · simp only [on_restart_clicked, h]
    · simp only [on_reload_clicked, h]
    · intro depth ha
      simp only [on_toggle_enable_toggled, h, ha, if_true]
      rfl
    · intro depth ha
      simp only [on_toggle_enable_toggled, h, ha]
      rfl
  · intro h
    simp only [on_reload_clicked, h]

/-- The row of `ssh.service` selected and Start clicked, and Reload clicked
with nothing selected, through `handlers_compose`. -/
theorem handlers_compose_witness :
    get_selected_unit selected_app = some "ssh.service".toList ∧
      on_start_clicked demo_sys selected_app
        = run_systemctl_action_and_notify demo_sys selected_app
            "systemctl start ssh.service".toList ∧
      on_toggle_enable_toggled 1 demo_sys selected_app
        = Nested.returned (run_systemctl_action_and_notify demo_sys selected_app
            "systemctl enable ssh.service".toList) ∧
      on_reload_clicked demo_sys activated_app
        = run_systemctl_action_and_notify demo_sys activated_app
            "systemctl daemon-reload".toList :=
  ⟨rfl,
   ((handlers_compose demo_sys selected_app).1 "ssh.service".toList rfl).1,
   ((handlers_compose demo_sys selected_app).1 "ssh.service".toList rfl).2.2.2.2.1 0 rfl,
   (handlers_compose demo_sys activated_app).2 rfl⟩

/-! ## Re-synchronization after an action -/

theorem run_privileged_trace {W : Type} (sys : Sys W) (w : W) (tr : List Event)
    (cmd : CStr) :
    ∃ evs, (run_privileged sys w tr cmd).trace = tr ++ evs ∧
      ∀ e ∈ evs, is_broker_event e = true := by
  by_cases hok : (run_command_pkexec_and_collect sys w tr cmd).ok = true
  · refine ⟨[Event.spawn_sync (pkexec_command_line cmd)], ?_, by simp [is_broker_event]⟩
    rw [run_privileged_primary sys w tr cmd hok, pkexec_trace]
  · have hok2 : (run_command_pkexec_and_collect sys w tr cmd).ok = false := by
      simpa using hok
    rw [run_privileged_fallback sys w tr cmd hok2]
    rcases sudo_cases sys (sys.g_spawn_command_line_sync w (pkexec_command_line cmd)).2
        (tr ++ [Event.spawn_sync (pkexec_command_line cmd)]) cmd with
      ⟨_, hr⟩ | ⟨pwd, w2, _, _, hr⟩ | ⟨pwd, outbuf, status, w2, _, _, hr⟩
    · exact ⟨[Event.spawn_sync (pkexec_command_line cmd), Event.dialog],
        by rw [hr]; simp, by simp [is_broker_event]⟩
    · exact ⟨[Event.spawn_sync (pkexec_command_line cmd), Event.dialog,
          Event.spawn_async (sudo_argv cmd)],
        by rw [hr]; simp, by simp [is_broker_event]⟩
    · exact ⟨[Event.spawn_sync (pkexec_command_line cmd), Event.dialog,
          Event.spawn_async (sudo_argv cmd), Event.write_stdin (pwd ++ ['\n'])],
        by rw [hr]; simp, by simp [is_broker_event]⟩

/-- The calls `run_systemctl_action_and_notify` makes, in order: those of the
broker, then for each of the three listings its `popen` followed by resolver
queries, then the three refilters. -/
theorem run_systemctl_trace {W : Type} (sys : Sys W) (app : App W) (cmd : CStr)
    (hs : ∀ i, i < 3 → (app.stores i).isSome = true)
    (hf : ∀ i, i < 3 → app.filters i = true) :
    ∃ b e0 e1 e2,
      (run_systemctl_action_and_notify sys app cmd).trace
        = app.trace ++ (b ++ Event.popen cmd_running :: e0 ++ Event.popen cmd_enabled :: e1
            ++ Event.popen cmd_all :: e2
            ++ [Event.refilter 0, Event.refilter 1, Event.refilter 2]) ∧
      (∀ e ∈ b, is_broker_event e = true) ∧
      (∀ e ∈ e0, is_resolver_query e = true) ∧
      (∀ e ∈ e1, is_resolver_query e = true) ∧
      (∀ e ∈ e2, is_resolver_query e = true) := by
  obtain ⟨b, hb, qb⟩ := run_privileged_trace sys app.world app.trace cmd
  obtain ⟨⟨e0, h0, q0⟩, -⟩ := populate_store_parsed_trace
    (sys.popen (run_privileged sys app.world app.trace cmd).world) (app.stores 0)
    cmd_running 0 (run_privileged sys app.world app.trace cmd).trace (hs 0 (by decide))
  obtain ⟨⟨e1, h1, q1⟩, -⟩ := populate_store_parsed_trace
    (sys.popen (run_privileged sys app.world app.trace cmd).world) (app.stores 1)
    cmd_enabled 1
    (populate_store_parsed (sys.popen (run_privileged sys app.world app.trace cmd).world)
      (app.stores 0) cmd_running 0 (run_privileged sys app.world app.trace cmd).trace).2
    (hs 1 (by decide))
  obtain ⟨⟨e2, h2, q2⟩, -⟩ := populate_store_parsed_trace
    (sys.popen (run_privileged sys app.world app.trace cmd).world) (app.stores 2)
    cmd_all 0
    (populate_store_parsed (sys.popen (run_privileged sys app.world app.trace cmd).world)
      (app.stores 1) cmd_enabled 1
      (populate_store_parsed (sys.popen (run_privileged sys app.world app.trace cmd).world)
        (app.stores 0) cmd_running 0 (run_privileged sys app.world app.trace cmd).trace).2).2
    (hs 2 (by decide))
  refine ⟨b, e0, e1, e2, ?_, qb, q0, q1, q2⟩
  have hf0 := hf 0 (by decide)
  have hf1 := hf 1 (by decide)
  have hf2 := hf 2 (by decide)
  simp only [run_systemctl_action_and_notify, on_filter_changed, hf0, hf1,
    hf2, List.filter_cons_of_pos, List.filter_nil, List.map_cons, List.map_nil]
  rw [h2, h1, h0, hb]
  simp only [List.append_assoc, List.cons_append]

theorem count_eq_zero_of_all (P : Event → Bool) (l : List Event) (x : Event)
    (h : ∀ e ∈ l, P e = true) (hx : P x = false) : l.count x = 0 := by
  apply List.count_eq_zero.2
  intro hm
  have := h x hm
  rw [hx] at this
  exact absurd this (by decide)

theorem not_mem_of_all (P : Event → Bool) (l : List Event) (x : Event)
    (h : ∀ e ∈ l, P e = true) (hx : P x = false) : x ∉ l := by
  intro hm
  have := h x hm
  rw [hx] at this
  exact absurd this (by decide)

/-- C7.  Every run of `run_systemctl_action_and_notify` on a state with its
three stores and filters in place, whatever the outcome of the broker, runs
each of the three listing commands exactly once, replaces each store by the
result of that one synchronization, and after all of that re-evaluates the
three filters (once each, and not before). -/
theorem resync_exactly_once {W : Type} (sys : Sys W) (app : App W) (cmd : CStr)
    (hs : ∀ i, i < 3 → (app.stores i).isSome = true)
    (hf : ∀ i, i < 3 → app.filters i = true) :
    ∃ before,
      (run_systemctl_action_and_notify sys app cmd).trace
        = app.trace ++ before ++ [Event.refilter 0, Event.refilter 1, Event.refilter 2] ∧
      (∀ i, Event.refilter i ∉ before) ∧
      before.count (Event.popen cmd_running) = 1 ∧
      before.count (Event.popen cmd_enabled) = 1 ∧
      before.count (Event.popen cmd_all) = 1 ∧
      (run_systemctl_action_and_notify sys app cmd).stores 0
        = (populate_store_parsed
            (sys.popen (run_systemctl_action_and_notify sys app cmd).world)
            (app.stores 0) cmd_running 0 []).1 ∧
      (run_systemctl_action_and_notify sys app cmd).stores 1
        = (populate_store_parsed
            (sys.popen (run_systemctl_action_and_notify sys app cmd).world)
            (app.stores 1) cmd_enabled 1 []).1 ∧
      (run_systemctl_action_and_notify sys app cmd).stores 2
        = (populate_store_parsed
            (sys.popen (run_systemctl_action_and_notify sys app cmd).world)
            (app.stores 2) cmd_all 0 []).1 := by
  obtain ⟨b, e0, e1, e2, htr, qb, q0, q1, q2⟩ := run_systemctl_trace sys app cmd hs hf
  have cb : ∀ c, b.count (Event.popen c) = 0 := fun c =>
    count_eq_zero_of_all is_broker_event b _ qb rfl
  have c0 : ∀ c, c.take 11 ≠ "systemctl s".toList → e0.count (Event.popen c) = 0 :=
    fun c hc => count_eq_zero_of_all is_resolver_query e0 _ q0 (by simpa [is_resolver_query] using hc)
  have c1 : ∀ c, c.take 11 ≠ "systemctl s".toList → e1.count (Event.popen c) = 0 :=
    fun c hc => count_eq_zero_of_all is_resolver_query e1 _ q1 (by simpa [is_resolver_query] using hc)
  have c2 : ∀ c, c.take 11 ≠ "systemctl s".toList → e2.count (Event.popen c) = 0 :=
    fun c hc => count_eq_zero_of_all is_resolver_query e2 _ q2 (by simpa [is_resolver_query] using hc)
  have kr : cmd_running.take 11 ≠ "systemctl s".toList := by decide
  have ke : cmd_enabled.take 11 ≠ "systemctl s".toList := by decide
  have ka : cmd_all.take 11 ≠ "systemctl s".toList := by decide
  have d1 : (Event.popen cmd_enabled == Event.popen cmd_running) = false := by decide
  have d2 : (Event.popen cmd_all == Event.popen cmd_running) = false := by decide
  have d3 : (Event.popen cmd_running == Event.popen cmd_enabled) = false := by decide
  have d4 : (Event.popen cmd_all == Event.popen cmd_enabled) = false := by decide
  have d5 : (Event.popen cmd_running == Event.popen cmd_all) = false := by decide
  have d6 : (Event.popen cmd_enabled == Event.popen cmd_all) = false := by decide
  refine ⟨b ++ Event.popen cmd_running :: e0 ++ Event.popen cmd_enabled :: e1
      ++ Event.popen cmd_all :: e2, ?_, ?_, ?_, ?_, ?_, ?_, ?_, ?_⟩
  · rw [htr]; simp only [List.append_assoc]
  · intro i hm
    simp only [List.mem_append, List.mem_cons] at hm
    rcases hm with ((hm | hm | hm) | hm | hm) | hm | hm
    · exact not_mem_of_all is_broker_event b (Event.refilter i) qb rfl hm
    · exact absurd hm (by simp)
    · exact not_mem_of_all is_resolver_query e0 (Event.refilter i) q0 rfl hm
    · exact absurd hm (by simp)
    · exact not_mem_of_all is_resolver_query e1 (Event.refilter i) q1 rfl hm
    · exact absurd hm (by simp)
    · exact not_mem_of_all is_resolver_query e2 (Event.refilter i) q2 rfl hm
  · simp only [List.count_append, List.count_cons, cb, c0 _ kr, c1 _ kr, c2 _ kr, d1, d2,
      beq_self_eq_true, if_true, Bool.false_eq_true, if_false]
  · simp only [List.count_append, List.count_cons, cb, c0 _ ke, c1 _ ke, c2 _ ke, d3, d4,
      beq_self_eq_true, if_true, Bool.false_eq_true, if_false]
  · simp only [List.count_append, List.count_cons, cb, c0 _ ka, c1 _ ka, c2 _ ka, d5, d6,
      beq_self_eq_true, if_true, Bool.false_eq_true, if_false]
  · exact (populate_store_parsed_trace _ _ _ _ _ (hs 0 (by decide))).2
  · exact (populate_store_parsed_trace _ _ _ _ _ (hs 1 (by decide))).2
  · exact (populate_store_parsed_trace _ _ _ _ _ (hs 2 (by decide))).2

/-- The scenario "pkexec fails, the operator supplies a password, sudo exits
with status 0" on the state `on_activate` builds, through
`resync_exactly_once`: success is reported and each listing runs once. -/
theorem resync_exactly_once_witness :
    status_text (run_systemctl_action_and_notify demo_sys activated_app
        "systemctl daemon-reload".toList).statusbar
      = some "Action completed successfully".toList ∧
    ∃ before,
      (run_systemctl_action_and_notify demo_sys activated_app
          "systemctl daemon-reload".toList).trace
        = activated_app.trace ++ before
            ++ [Event.refilter 0, Event.refilter 1, Event.refilter 2] ∧
      before.count (Event.popen cmd_running) = 1 ∧
      before.count (Event.popen cmd_enabled) = 1 ∧
      before.count (Event.popen cmd_all) = 1 := by
  refine ⟨by decide, ?_⟩
  obtain ⟨before, h1, _, h3, h4, h5, _⟩ :=
    resync_exactly_once demo_sys activated_app "systemctl daemon-reload".toList
      (by decide) (by decide)
  exact ⟨before, h1, h3, h4, h5⟩

/-! ## The resolver -/

theorem trim_newline_cons (c : Char) (x : CStr) (hc : c ≠ '\n') :
    trim_newline (c :: x) = c :: trim_newline x := by
  cases x with
  | nil => simp [trim_newline, hc]
  | cons d ds =>
    unfold trim_newline
    rw [List.getLast?_cons_cons]
    by_cases h : (d :: ds).getLast? = some '\n'
    · simp [h, List.dropLast]
    · simp [h]

/-- What `fgets` followed by `trim_newline` leaves in the buffer: the first
line of the stream, as far as the buffer holds it. -/
theorem trim_fgets_chunk (out : CStr) : ∀ (k : Nat),
    trim_newline (fgets_chunk k out).1 = (first_line out).take k := by
  induction out with
  | nil => intro k; cases k <;> simp [fgets_chunk, first_line, trim_newline]
  | cons c cs ih =>
    intro k
    cases k with
    | zero => simp [fgets_chunk, trim_newline]
    | succ k =>
      by_cases hc : c = '\n'
      · subst hc
        simp [fgets_chunk, first_line, trim_newline]
      · have h := ih k
        simp only [fgets_chunk, hc, if_false]
        rw [trim_newline_cons c _ hc, h]
        simp [first_line, List.takeWhile_cons, hc]

/-- C11 (amended).  `get_unit_property_value` returns the first line of the
output of the property-query command, without its newline, cut to the `n - 1`
bytes the buffer holds; it returns the empty string when the command cannot be
started, when it produces no output, and when the unit (or property) pointer is
NULL.  An empty unit name is not treated specially: the command is run with it
and its first line is returned. -/
theorem get_unit_property_value_spec (popen : CStr → Option CStr) (unit prop : CStr)
    (n : Nat) (tr : List Event) :
    (get_unit_property_value popen unit prop n tr).1
        = (match popen (property_cmd unit prop) with
           | none => []
           | some out => (first_line out).take (n - 1)) ∧
      get_unit_property_value_checked popen none (some prop) n tr = ([], tr) ∧
      get_unit_property_value_checked popen (some unit) none n tr = ([], tr) ∧
      get_unit_property_value_checked popen (some unit) (some prop) n tr
        = get_unit_property_value popen unit prop n tr := by
  refine ⟨?_, rfl, rfl, rfl⟩
  unfold get_unit_property_value
  by_cases hn : n = 0
  · subst hn
    cases popen (property_cmd unit prop) <;> simp
  · simp only [hn, if_false]
    cases hp : popen (property_cmd unit prop) with
    | none => rfl
    | some out =>
      by_cases ho : out = []
      · subst ho
        simp [fgets, first_line]
      · simp only [fgets, ho, if_false]
        exact trim_fgets_chunk out (n - 1)

/-- C11 (counterexample).  With the empty unit name the command is still run;
in the world `version_popen` it prints the manager's version, and that line is
what the resolver returns, not the empty string. -/
theorem get_unit_property_value_empty_unit :
    property_cmd [] "Version".toList = "systemctl show -p Version --value  2>/dev/null".toList ∧
      (get_unit_property_value version_popen [] "Version".toList 64 []).1 = "252".toList := by
  decide

/-! ## Idempotence of a synchronization -/

/-- C12.  The rows `populate_store_parsed` leaves in an existing store depend
only on what the outside world answers: they are the same whatever the store
held before and whatever had been traced before, so synchronizing twice in an
unchanged world gives the same record sequence twice; when the listing command
cannot be started the store holds the single error record, again whatever it
held before. -/
theorem populate_store_parsed_idempotent (popen : CStr → Option CStr) (old1 old2 : Store)
    (cmd : CStr) (mode : Int) (tr1 tr2 : List Event) :
    (populate_store_parsed popen (some old1) cmd mode tr1).1
        = (populate_store_parsed popen (some old2) cmd mode tr2).1 ∧
      (populate_store_parsed popen
          (populate_store_parsed popen (some old1) cmd mode tr1).1 cmd mode
          (populate_store_parsed popen (some old1) cmd mode tr1).2).1
        = (populate_store_parsed popen (some old1) cmd mode tr1).1 ∧
      (popen cmd = none →
        (populate_store_parsed popen (some old1) cmd mode tr1).1
          = some [{ name := some "Error running command".toList, state := some [],
                    pid := some [], desc := some [] }]) := by
  have hkey : ∀ (o1 o2 : Store) (t1 t2 : List Event),
      (populate_store_parsed popen (some o1) cmd mode t1).1
        = (populate_store_parsed popen (some o2) cmd mode t2).1 := by
    intro o1 o2 t1 t2
    rw [(populate_store_parsed_trace popen (some o1) cmd mode t1 rfl).2,
      (populate_store_parsed_trace popen (some o2) cmd mode t2 rfl).2]
    rfl
  refine ⟨hkey _ _ _ _, ?_, ?_⟩
  · cases h : (populate_store_parsed popen (some old1) cmd mode tr1).1 with
    | none =>
      have : ((populate_store_parsed popen (some old1) cmd mode tr1).1).isSome = true := by
        unfold populate_store_parsed
        cases popen cmd <;> rfl
      rw [h] at this
      exact absurd this (by decide)
    | some rows =>
      have e := hkey rows old1 (populate_store_parsed popen (some old1) cmd mode tr1).2 tr1
      rw [h] at e
      exact e
  · intro hp
    simp [populate_store_parsed, hp]

/-- A listing command that cannot be started, with a store that held a row
before, through `populate_store_parsed_idempotent`. -/
theorem populate_store_parsed_idempotent_witness :
    demo_popen cmd_running = none ∧
      (populate_store_parsed demo_popen
          (some [{ name := some "old.service".toList, state := some [], pid := some [],
                   desc := some [] }]) cmd_running 0 []).1
        = some [{ name := some "Error running command".toList, state := some [],
                  pid := some [], desc := some [] }] :=
  ⟨by decide,
   (populate_store_parsed_idempotent demo_popen
      [{ name := some "old.service".toList, state := some [], pid := some [],
         desc := some [] }] [] cmd_running 0 [] []).2.2 (by decide)⟩

/-! ## The status shown after an action -/

/-- C13.  After `run_systemctl_action_and_notify` the status bar shows
"Action completed successfully" when the broker succeeded; when it failed it
shows the broker's captured text verbatim if that text is non-empty, and
"Action failed" if no text was captured (NULL or empty). -/
theorem status_after_action {W : Type} (sys : Sys W) (app : App W) (cmd : CStr) :
    ((run_privileged sys app.world app.trace cmd).ok = true →
      status_text (run_systemctl_action_and_notify sys app cmd).statusbar
        = some "Action completed successfully".toList) ∧
    (∀ text, (run_privileged sys app.world app.trace cmd).ok = false →
      (run_privileged sys app.world app.trace cmd).err = some text → text ≠ [] →
      status_text (run_systemctl_action_and_notify sys app cmd).statusbar = some text) ∧
    ((run_privileged sys app.world app.trace cmd).ok = false →
      ((run_privileged sys app.world app.trace cmd).err = none ∨
        (run_privileged sys app.world app.trace cmd).err = some []) →
      status_text (run_systemctl_action_and_notify sys app cmd).statusbar
        = some "Action failed".toList) := by
  refine ⟨?_, ?_, ?_⟩
  · intro hok
    simp [run_systemctl_action_and_notify, on_filter_changed, status_text,
      gtk_statusbar_push, hok]
  · intro text hok herr hne
    cases text with
    | nil => exact absurd rfl hne
    | cons c cs =>
      simp [run_systemctl_action_and_notify, on_filter_changed, status_text,
        gtk_statusbar_push, hok, herr]
  · intro hok herr
    rcases herr with herr | herr
    · simp [run_systemctl_action_and_notify, on_filter_changed, status_text,
        gtk_statusbar_push, hok, herr]
    · simp [run_systemctl_action_and_notify, on_filter_changed, status_text,
        gtk_statusbar_push, hok, herr]

/-- Success through the fallback, a rejected password and a cancelled prompt,
through `status_after_action`. -/
theorem status_after_action_witness :
    status_text (run_systemctl_action_and_notify demo_sys activated_app
        "systemctl daemon-reload".toList).statusbar
      = some "Action completed successfully".toList ∧
    status_text (run_systemctl_action_and_notify denied_sys activated_app
        "systemctl daemon-reload".toList).statusbar
      = some "sudo: 1 incorrect password attempt\n".toList ∧
    status_text (run_systemctl_action_and_notify cancel_sys activated_app
        "systemctl daemon-reload".toList).statusbar
      = some "Action failed".toList :=
  ⟨(status_after_action demo_sys activated_app "systemctl daemon-reload".toList).1
      (by decide),
   (status_after_action denied_sys activated_app "systemctl daemon-reload".toList).2.1
      "sudo: 1 incorrect password attempt\n".toList (by decide) (by decide) (by decide),
   (status_after_action cancel_sys activated_app "systemctl daemon-reload".toList).2.2
      (by decide) (Or.inl (by decide))⟩

/-! ## What the redirection suffix does -/

theorem splitOnP_append_delim (a b : CStr) (d : Char) (hd : isDelim d = true) :
    (a ++ d :: b).splitOnP (fun c => isDelim c)
      = a.splitOnP (fun c => isDelim c) ++ b.splitOnP (fun c => isDelim c) := by
  induction a with
  | nil => simp [hd]
  | cons x xs ih =>
    by_cases hx : isDelim x = true
    · simp [hx, ih]
    · have hx2 : isDelim x = false := by simpa using hx
      simp only [List.cons_append, List.splitOnP_cons, hx2, Bool.false_eq_true, if_false, ih]
      cases hs : xs.splitOnP (fun c => isDelim c) with
      | nil => exact absurd hs (List.splitOnP_ne_nil _ _)
      | cons y ys => simp [List.modifyHead]

/-- The tokens of two pieces of text joined by a blank or tab. -/
theorem tokens_append_delim (a b : CStr) (d : Char) (hd : isDelim d = true) :
    tokens (a ++ d :: b) = tokens a ++ tokens b := by
  unfold tokens
  rw [splitOnP_append_delim a b d hd, List.filter_append]

/-- The descriptors of a plain command under the suffix of the broker:
descriptor 2 is made a copy of descriptor 1, which is the stdout pipe at that
moment, and only then is descriptor 1 pointed to `/dev/null`. -/
theorem command_fds_suffix (cmd : CStr)
    (hplain : ∀ w ∈ tokens cmd, parse_redirection w = none) :
    command_fds (cmd ++ redirect_suffix)
      = { fd1 := Sink.dev_null, fd2 := Sink.out_pipe } := by
  have hs : redirect_suffix = ' ' :: "2>&1 1>/dev/null".toList := rfl
  have ht : tokens "2>&1 1>/dev/null".toList = ["2>&1".toList, "1>/dev/null".toList] := by
    decide
  have hf : (tokens cmd).filterMap parse_redirection = [] := by
    apply List.filterMap_eq_nil_iff.2
    exact hplain
  unfold command_fds
  rw [hs, tokens_append_delim cmd _ ' ' (by decide), ht, List.filterMap_append, hf]
  decide

/-- C14 (what the code does).  For every plain command both tiers hand the
shell the command followed by ` 2>&1 1>/dev/null`.  Under that suffix the
command's standard error goes to the child's stdout pipe and its standard
output to `/dev/null`: nothing the command writes arrives on the child's
stderr pipe, which is the channel the broker reads. -/
theorem suffix_routes_stderr_to_stdout (cmd : CStr) (b : Behaviour)
    (hplain : ∀ w ∈ tokens cmd, parse_redirection w = none) :
    (sudo_argv cmd).getLast? = some (cmd ++ redirect_suffix) ∧
      pkexec_command_line cmd
        = "pkexec /bin/sh -c '".toList ++ (cmd ++ redirect_suffix) ++ ['\''] ∧
      command_fds (cmd ++ redirect_suffix)
        = { fd1 := Sink.dev_null, fd2 := Sink.out_pipe } ∧
      reaches (command_fds (cmd ++ redirect_suffix)) b Sink.err_pipe = [] ∧
      reaches (command_fds (cmd ++ redirect_suffix)) b Sink.out_pipe = b.stderr := by
  have h := command_fds_suffix cmd hplain
  refine ⟨rfl, ?_, h, ?_, ?_⟩
  · simp [pkexec_command_line, redirect_suffix]
  · rw [h]; simp [reaches]
  · rw [h]; simp [reaches]

/-- A `systemctl start` of a unit that does not exist, through
`suffix_routes_stderr_to_stdout`: the diagnostic reaches the stdout pipe, the
stderr pipe stays empty, and the broker, with pkexec and sudo both granting
the request, fails with no captured text. -/
theorem suffix_routes_stderr_to_stdout_witness :
    reaches (command_fds ("systemctl start nosuch.service".toList ++ redirect_suffix))
        (unit_not_found []) Sink.err_pipe = [] ∧
      reaches (command_fds ("systemctl start nosuch.service".toList ++ redirect_suffix))
        (unit_not_found []) Sink.out_pipe
        = "Failed to start nosuch.service: Unit nosuch.service not found.\n".toList ∧
      (run_privileged (shell_sys unit_not_found) 0 []
        "systemctl start nosuch.service".toList).ok = false ∧
      (run_privileged (shell_sys unit_not_found) 0 []
        "systemctl start nosuch.service".toList).err = none := by
  have h := suffix_routes_stderr_to_stdout "systemctl start nosuch.service".toList
    (unit_not_found []) (by decide)
  exact ⟨h.2.2.2.1, h.2.2.2.2, by decide, by decide⟩

/-! ## The command line of the primary tier -/

theorem shell_words_single (body : CStr) : ∀ (acc rest : CStr), '\'' ∉ body →
    shell_words Quote.single (some acc) (body ++ '\'' :: rest)
      = shell_words Quote.plain (some (acc ++ body)) rest := by
  induction body with
  | nil => intro acc rest _; simp [shell_words]
  | cons c cs ih =>
    intro acc rest h
    have hc : c ≠ '\'' := fun e => h (by simp [e])
    have hcs : '\'' ∉ cs := fun e => h (by simp [e])
    simp only [List.cons_append, shell_words, hc, if_false, push_char, Option.getD_some]
    have e := ih (acc ++ [c]) rest hcs
    simp only [List.append_assoc, List.singleton_append] at e
    exact e

theorem shell_words_pkexec (rest : CStr) :
    shell_words Quote.plain none ("pkexec /bin/sh -c '".toList ++ rest)
      = (shell_words Quote.single (some []) rest).map
          (fun ws => "pkexec".toList :: "/bin/sh".toList :: "-c".toList :: ws) := by
  show shell_words Quote.plain none
    ('p' :: 'k' :: 'e' :: 'x' :: 'e' :: 'c' :: ' ' :: '/' :: 'b' :: 'i' :: 'n' :: '/' :: 's'
      :: 'h' :: ' ' :: '-' :: 'c' :: ' ' :: '\'' :: rest) = _
  simp [shell_words, push_char]
  cases shell_words Quote.single (some []) rest <;> rfl

/-- The primary tier when the command contains no single quote: the words of
the command line are `pkexec`, `/bin/sh`, `-c` and the command followed by the
suffix. -/
theorem pkexec_line_exact (cmd : CStr) (h : '\'' ∉ cmd) :
    g_shell_parse_argv (pkexec_command_line cmd)
      = some ["pkexec".toList, "/bin/sh".toList, "-c".toList, cmd ++ redirect_suffix] := by
  have hline : pkexec_command_line cmd
      = "pkexec /bin/sh -c '".toList ++ ((cmd ++ redirect_suffix) ++ '\'' :: []) := by
    simp [pkexec_command_line, redirect_suffix]
  have hbody : '\'' ∉ cmd ++ redirect_suffix := by
    intro hm
    rcases List.mem_append.1 hm with hm | hm
    · exact h hm
    · exact absurd hm (by decide)
  unfold g_shell_parse_argv
  rw [hline, shell_words_pkexec, shell_words_single _ [] [] hbody]
  simp [shell_words]

/-- C15 (what the code does).  The fallback tier hands the command followed by
the suffix to `/bin/sh` as the one argument after `-c`, whatever the command
contains.  The primary tier puts the command between single quotes in a
command line that `g_spawn_command_line_sync` splits again: the argument after
`-c` is the command followed by the suffix when the command contains no single
quote; the command `systemctl start a' 'b.service` is split in two words, and
`systemctl start a'b.service` makes the command line unparsable. -/
theorem broker_command_argument (cmd : CStr) :
    sudo_argv cmd
        = ["sudo".toList, "-S".toList, "/bin/sh".toList, "-c".toList,
           cmd ++ redirect_suffix] ∧
      ('\'' ∉ cmd →
        g_shell_parse_argv (pkexec_command_line cmd)
          = some ["pkexec".toList, "/bin/sh".toList, "-c".toList, cmd ++ redirect_suffix]) ∧
      g_shell_parse_argv (pkexec_command_line "systemctl start a' 'b.service".toList)
        = some ["pkexec".toList, "/bin/sh".toList, "-c".toList, "systemctl start a".toList,
                "b.service 2>&1 1>/dev/null".toList] ∧
      g_shell_parse_argv (pkexec_command_line "systemctl start a'b.service".toList)
        = none := by
  refine ⟨rfl, pkexec_line_exact cmd, ?_, ?_⟩
  · decide
  · decide

/-- A command without a quote, through `broker_command_argument`: both tiers
hand the shell the same argument. -/
theorem broker_command_argument_witness :
    g_shell_parse_argv (pkexec_command_line "systemctl start ssh.service".toList)
        = some ["pkexec".toList, "/bin/sh".toList, "-c".toList,
                "systemctl start ssh.service 2>&1 1>/dev/null".toList] ∧
      (sudo_argv "systemctl start ssh.service".toList).getLast?
        = some "systemctl start ssh.service 2>&1 1>/dev/null".toList :=
  ⟨(broker_command_argument "systemctl start ssh.service".toList).2.1 (by decide),
   by rw [(broker_command_argument "systemctl start ssh.service".toList).1]; rfl⟩

/-! ## The handlers in the states the program builds -/

theorem populate_store_parsed_extends (popen : CStr → Option CStr) (store : Option Store)
    (cmd : CStr) (mode : Int) (tr : List Event) :
    ∃ evs, (populate_store_parsed popen store cmd mode tr).2 = tr ++ evs := by
  cases store with
  | none => exact ⟨[], by simp [populate_store_parsed]⟩
  | some old =>
    obtain ⟨⟨evs, h, -⟩, -⟩ := populate_store_parsed_trace popen (some old) cmd mode tr rfl
    exact ⟨Event.popen cmd :: evs, h⟩

/-- The first call of the broker is the pkexec run of the command it was
handed. -/
theorem run_privileged_head {W : Type} (sys : Sys W) (w : W) (tr : List Event)
    (cmd : CStr) :
    ∃ new, (run_privileged sys w tr cmd).trace
      = tr ++ Event.spawn_sync (pkexec_command_line cmd) :: new := by
  by_cases hok : (run_command_pkexec_and_collect sys w tr cmd).ok = true
  · refine ⟨[], ?_⟩
    rw [run_privileged_primary sys w tr cmd hok, pkexec_trace]
  · have hok2 : (run_command_pkexec_and_collect sys w tr cmd).ok = false := by
      simpa using hok
    rw [run_privileged_fallback sys w tr cmd hok2]
    rcases sudo_cases sys (sys.g_spawn_command_line_sync w (pkexec_command_line cmd)).2
        (tr ++ [Event.spawn_sync (pkexec_command_line cmd)]) cmd with
      ⟨_, hr⟩ | ⟨pwd, w2, _, _, hr⟩ | ⟨pwd, outbuf, status, w2, _, _, hr⟩
    · exact ⟨[Event.dialog], by rw [hr]; simp⟩
    · exact ⟨[Event.dialog, Event.spawn_async (sudo_argv cmd)], by rw [hr]; simp⟩
    · exact ⟨[Event.dialog, Event.spawn_async (sudo_argv cmd),
        Event.write_stdin (pwd ++ ['\n'])], by rw [hr]; simp⟩

/-- The first call `run_systemctl_action_and_notify` makes is the pkexec run of
the command it was handed. -/
theorem run_systemctl_head {W : Type} (sys : Sys W) (app : App W) (cmd : CStr) :
    ∃ rest, (run_systemctl_action_and_notify sys app cmd).trace
      = app.trace ++ Event.spawn_sync (pkexec_command_line cmd) :: rest := by
  obtain ⟨new, hb⟩ := run_privileged_head sys app.world app.trace cmd
  obtain ⟨e0, h0⟩ := populate_store_parsed_extends
    (sys.popen (run_privileged sys app.world app.trace cmd).world) (app.stores 0)
    cmd_running 0 (run_privileged sys app.world app.trace cmd).trace
  obtain ⟨e1, h1⟩ := populate_store_parsed_extends
    (sys.popen (run_privileged sys app.world app.trace cmd).world) (app.stores 1)
    cmd_enabled 1
    (populate_store_parsed (sys.popen (run_privileged sys app.world app.trace cmd).world)
      (app.stores 0) cmd_running 0 (run_privileged sys app.world app.trace cmd).trace).2
  obtain ⟨e2, h2⟩ := populate_store_parsed_extends
    (sys.popen (run_privileged sys app.world app.trace cmd).world) (app.stores 2)
    cmd_all 0
    (populate_store_parsed (sys.popen (run_privileged sys app.world app.trace cmd).world)
      (app.stores 1) cmd_enabled 1
      (populate_store_parsed (sys.popen (run_privileged sys app.world app.trace cmd).world)
        (app.stores 0) cmd_running 0 (run_privileged sys app.world app.trace cmd).trace).2).2
  refine ⟨new ++ e0 ++ e1 ++ e2
    ++ (([0, 1, 2].filter (fun i => app.filters i)).map Event.refilter), ?_⟩
  simp only [run_systemctl_action_and_notify, on_filter_changed]
  rw [h2, h1, h0, hb]
  simp only [List.append_assoc, List.cons_append]

/-- C10 (what the code does).  In every state in which `notebook` is NULL, and
that is every state the program builds, because `on_activate` never assigns
`ad->notebook`, `get_selected_unit` returns NULL whatever row is selected in
the views.  So with a unit selected the Start, Stop and Restart handlers hand
nothing to the broker (the trace is unchanged and the status is "No service
selected"), and the first call of the Reload handler is the pkexec run of
`systemctl daemon-reload`, not of `systemctl reload` with the unit. -/
theorem handlers_with_notebook_unset {W : Type} (sys : Sys W) (app : App W)
    (h : app.notebook = none) :
    get_selected_unit app = none ∧
      on_start_clicked sys app = no_service_selected app ∧
      on_stop_clicked sys app = no_service_selected app ∧
      on_restart_clicked sys app = no_service_selected app ∧
      (no_service_selected app).trace = app.trace ∧
      status_text (no_service_selected app).statusbar = some "No service selected".toList ∧
      ∃ rest, (on_reload_clicked sys app).trace
        = app.trace
            ++ Event.spawn_sync (pkexec_command_line "systemctl daemon-reload".toList)
              :: rest := by
  have hsel : get_selected_unit app = none := by
    unfold get_selected_unit
    rw [h]
  refine ⟨hsel, ?_, ?_, ?_, rfl, rfl, ?_⟩
  · simp only [on_start_clicked, hsel]
  · simp only [on_stop_clicked, hsel]
  · simp only [on_restart_clicked, hsel]
  · simp only [on_reload_clicked, hsel]
    exact run_systemctl_head sys app "systemctl daemon-reload".toList

/-- The state `on_activate` leaves with the row of `ssh.service` selected on
page 0, through `handlers_with_notebook_unset`: Start reports that no service
is selected and calls nothing, Reload runs `systemctl daemon-reload`. -/
theorem handlers_with_notebook_unset_witness :
    wired_selected_app.views 0
        = some (some { name := some "ssh.service".toList, state := some "active".toList,
                       pid := some [], desc := some "OpenSSH Daemon".toList }) ∧
      get_selected_unit wired_selected_app = none ∧
      (on_start_clicked demo_sys wired_selected_app).trace = [] ∧
      status_text (on_start_clicked demo_sys wired_selected_app).statusbar
        = some "No service selected".toList ∧
      ∃ rest, (on_reload_clicked demo_sys wired_selected_app).trace
        = wired_selected_app.trace
            ++ Event.spawn_sync (pkexec_command_line "systemctl daemon-reload".toList)
              :: rest := by
  have h := handlers_with_notebook_unset demo_sys wired_selected_app rfl
  refine ⟨rfl, h.1, ?_, ?_, h.2.2.2.2.2.2⟩
  · rw [h.2.1]; exact h.2.2.2.2.1
  · rw [h.2.1]; exact h.2.2.2.2.2.1

end SysdMgr
